import Mathlib

/-!
Verification of the CasaOS app-aggregation pipeline (`casaos_dash.py`) and the
Cosmos marketplace exporter (`generate_cosmos_market.py`).

The Python scripts manipulate JSON/YAML-shaped data.  We shallowly embed the
dynamic values they handle as the inductive type `PyVal` (no floats appear in
the relevant code paths), Python dictionaries as association lists in
insertion order (keys unique by construction of the operations used), and
fallible Python code as `Except PyErr`.  Machine-level concerns (HTTP, file
system, clocks) are modelled as explicit inputs to the pure functions.
-/

/-- Dynamic values as produced by `json.load` / `yaml.safe_load` in the paths
the scripts exercise.  Dictionaries are association lists in insertion order. -/
inductive PyVal where
  | pnone
  | pbool (b : Bool)
  | pint (n : Int)
  | pstr (s : String)
  | plist (items : List PyVal)
  | pdict (entries : List (String × PyVal))

/-- The Python exception kinds that the embedded code can raise. -/
inductive PyErr where
  | attributeError
  | typeError
  | keyError
  | stopIteration
deriving DecidableEq, Repr

/-- Python truthiness (`bool(x)`) for the embedded values: `None`, `False`,
`0`, `""`, `[]` and `{}` are falsy, everything else truthy. -/
def pyTruthy : PyVal → Bool
  | .pnone => false
  | .pbool b => b
  | .pint n => n != 0
  | .pstr s => s != ""
  | .plist xs => !xs.isEmpty
  | .pdict es => !es.isEmpty

/-- Python `a or b` (restricted to the two-operand step; chains associate to
the right, which agrees with Python's value semantics). -/
def pyOr (a b : PyVal) : PyVal := if pyTruthy a then a else b

/-- Pure dictionary access `d.get(k, default)` on an entry list known to be a
dictionary. -/
def dGet (es : List (String × PyVal)) (k : String) (d : PyVal) : PyVal :=
  (es.lookup k).getD d

/-- `v.get(k, default)`: `AttributeError` when the receiver is not a dict
(Python `str`, `list`, `int`, `bool` and `None` have no `get` method). -/
def pyGetD : PyVal → String → PyVal → Except PyErr PyVal
  | .pdict es, k, d => .ok (dGet es k d)
  | _, _, _ => .error .attributeError

/-- `v.get(k)` (default `None`). -/
def pyGet (v : PyVal) (k : String) : Except PyErr PyVal := pyGetD v k .pnone

/-- Python dictionary assignment `d[k] = v`: updates an existing key in place,
otherwise appends the new key at the end (insertion order). -/
def dictSet (es : List (String × PyVal)) (k : String) (v : PyVal) : List (String × PyVal) :=
  if es.any (fun p => p.1 == k) then
    es.map (fun p => if p.1 == k then (k, v) else p)
  else es ++ [(k, v)]

/-- Substring containment test on strings, via their character lists
(Lean's `String.contains` does not evaluate in the kernel, so the embedding
works on `List Char` throughout). -/
def substrCheck (needle hay : String) : Bool :=
  decide (needle.toList <:+: hay.toList)

/-- Python `key in v` for the containers the scripts apply it to: substring
test on `str`, element test on `list` (a Python `str` only compares equal to
a `str`), key test on `dict`; `TypeError` on non-containers. -/
def pyInMember (key : String) : PyVal → Except PyErr Bool
  | .pstr s => .ok (substrCheck key s)
  | .plist xs => .ok (xs.any (fun v => match v with | .pstr s => s == key | _ => false))
  | .pdict es => .ok (es.any (fun p => p.1 == key))
  | _ => .error .typeError

/-- Python `s.split(sep, 1)` for a single-character separator known to occur
in `s`: the part before the first occurrence and the part after it. -/
def splitOnce (s : String) (c : Char) : String × String :=
  let l := s.toList
  ((l.takeWhile (fun x => x != c)).asString,
   ((l.dropWhile (fun x => x != c)).drop 1).asString)

/-- Python `s.split(sep)` for a single-character separator, on character
lists.  Always returns at least one (possibly empty) segment. -/
def splitChar (c : Char) : List Char → List (List Char)
  | [] => [[]]
  | x :: xs =>
      let r := splitChar c xs
      if x == c then [] :: r else (x :: r.headD []) :: r.tail

/-- Python `s.lower()` (the characters the pipeline feeds it are ASCII after
the regex filters; `Char.toLower` agrees with Python there). -/
def strLower (s : String) : String := (s.toList.map Char.toLower).asString

/-- Decimal digits of `n` (most significant first), with fuel for structural
recursion so the definition evaluates in the kernel.  `decDigits (n+1) n`
always has enough fuel. -/
def decDigits : Nat → Nat → List Char
  | 0, _ => []
  | fuel + 1, n =>
      if n < 10 then [Nat.digitChar n]
      else decDigits fuel (n / 10) ++ [Nat.digitChar (n % 10)]

/-- Python `str(n)` for a natural number. -/
def natToDec (n : Nat) : String := (decDigits (n + 1) n).asString

/-- Python `str(n)` for an integer. -/
def intToDec : Int → String
  | .ofNat n => natToDec n
  | .negSucc m => "-" ++ natToDec (m + 1)

mutual

/-- Python `repr(v)` for embedded values, used by `str` on containers.  The
scripts never inspect the rendering of containers, so the (unescaped)
quoting of nested strings is a harmless approximation of CPython's `repr`. -/
def pyRepr : PyVal → String
  | .pnone => "None"
  | .pbool true => "True"
  | .pbool false => "False"
  | .pint n => intToDec n
  | .pstr s => "\x27" ++ s ++ "\x27"
  | .plist xs => "[" ++ String.intercalate ", " (pyReprList xs) ++ "]"
  | .pdict es => "\x7b" ++ String.intercalate ", " (pyReprDict es) ++ "\x7d"

/-- Renders the elements of a Python list for `pyRepr`. -/
def pyReprList : List PyVal → List String
  | [] => []
  | x :: xs => pyRepr x :: pyReprList xs

/-- Renders the entries of a Python dict for `pyRepr`. -/
def pyReprDict : List (String × PyVal) → List String
  | [] => []
  | (k, v) :: es => ("\x27" ++ k ++ "\x27: " ++ pyRepr v) :: pyReprDict es

end

/-- Python `str(v)`. -/
def pyStr : PyVal → String
  | .pstr s => s
  | v => pyRepr v

/-!
## `extract_compose_metadata` (casaos_dash.py, lines 288-430)
-/

/-- The resolved metadata mapping: the keys `extract_compose_metadata`
assigns unconditionally are plain fields; `port` and `memory` are only
assigned under conditions (lines 395-407 and 426-428), hence `Option`. -/
structure Metadata where
  title : PyVal
  icon : PyVal
  description : PyVal
  category : PyVal
  author : PyVal
  version : PyVal
  port : Option PyVal
  volumes : PyVal
  environment : PyVal
  memory : Option PyVal

/-- Locale selection, lines 319 / 337 / 343:
`v.get('en_US', v.get('en_us', v.get('en', '')))` on a dict value. -/
def localeChain (es : List (String × PyVal)) : PyVal :=
  dGet es "en_US" (dGet es "en_us" (dGet es "en" (.pstr "")))

/-- The `isinstance(v, dict)` guard around locale selection (lines 318-319,
336-337): a mapping goes through the locale chain, anything else is kept. -/
def localeSelectVal (v : PyVal) : PyVal :=
  match v with
  | .pdict m => localeChain m
  | v => v

/-- Line 300: `next(iter(services.values())) if services else {}`.
`.values()` raises `AttributeError` on a truthy non-dict; `next` on an empty
dict would raise `StopIteration` (unreachable: an empty dict is falsy). -/
def firstServiceValue (services : PyVal) : Except PyErr PyVal :=
  if pyTruthy services then
    match services with
    | .pdict ((_, v) :: _) => .ok v
    | .pdict [] => .error .stopIteration
    | _ => .error .attributeError
  else .ok (.pdict [])

/-- One iteration of the `K=V`-list-to-dict loops (lines 307-310 for labels,
lines 417-420 for environment entries): `if '=' in item: key, value =
item.split('=', 1); d[key] = value` (a non-`str` item that contains `'='`
has no `split`, hence `AttributeError`; `'=' in item` itself raises
`TypeError` on non-containers). -/
def kvStep (acc : List (String × PyVal)) (l : PyVal) :
    Except PyErr (List (String × PyVal)) := do
  let hasEq ← pyInMember "=" l
  if hasEq then
    match l with
    | .pstr s =>
        let kv := splitOnce s '='
        pure (dictSet acc kv.1 (.pstr kv.2))
    | _ => .error .attributeError
  else pure acc

/-- The `K=V`-list-to-dict loop shared by the label block (lines 306-310)
and the environment block (lines 416-420). -/
def kvListToDict (items : List PyVal) : Except PyErr (List (String × PyVal)) :=
  items.foldlM kvStep []

/-- Lines 304-312: normalise service labels to a dict.  A list is folded
through `kvStep`; a non-list value is used as-is via `labels or {}`. -/
def mkLabelDict (labels : PyVal) : Except PyErr PyVal := do
  match labels with
  | .plist items =>
      let d ← kvListToDict items
      pure (.pdict d)
  | _ => pure (pyOr labels (.pdict []))

/-- Lines 365-377: the fixed category keyword table (order significant). -/
def category_mapping : List (String × List String) :=
  [("Media", ["plex", "jellyfin", "emby", "kodi", "sonarr", "radarr", "lidarr", "bazarr",
              "tautulli", "overseerr", "jellyseerr", "navidrome"]),
   ("Downloader", ["qbittorrent", "transmission", "deluge", "sabnzbd", "nzbget", "jackett",
                   "prowlarr", "autobrr"]),
   ("Cloud", ["nextcloud", "owncloud", "seafile", "syncthing", "filebrowser"]),
   ("Database", ["mariadb", "mysql", "postgres", "mongodb", "redis", "influxdb"]),
   ("Network", ["pihole", "adguard", "nginx", "traefik", "cloudflared", "wireguard", "ddns"]),
   ("Home Automation", ["homeassistant", "openhab", "node-red", "mosquitto", "zigbee2mqtt",
                        "esphome"]),
   ("Utilities", ["portainer", "watchtower", "duplicati", "resilio", "uptime", "grafana",
                  "netdata"]),
   ("AI", ["ollama", "stable-diffusion", "chatgpt", "open-webui", "anythingllm", "flowise",
           "dify"]),
   ("Notes", ["trilium", "obsidian", "joplin", "memos", "hedgedoc", "logseq"]),
   ("Developer", ["gitea", "jenkins", "code-server", "vscode"]),
   ("Finance", ["firefly", "actual", "budget"])]

/-- Lines 379-382: first table row with a keyword occurring in the lowered
app name wins; otherwise the (falsy) category value is left unchanged. -/
def inferCategory (app_name : String) (category : PyVal) : PyVal :=
  match category_mapping.find? (fun p => p.2.any (fun app => substrCheck app app_name)) with
  | some p => .pstr p.1
  | none => category

/-- Line 392, the default argument of `label_dict.get('casaos.version', _)`:
`main_service.get('image', '').split(':')[-1] if ':' in main_service.get('image', '') else ''`. -/
def versionDefault (image : PyVal) : Except PyErr PyVal := do
  let hasColon ← pyInMember ":" image
  if hasColon then
    match image with
    | .pstr s => pure (.pstr (((splitChar ':' s.toList).getLastD []).asString))
    | _ => .error .attributeError
  else pure (.pstr "")

/-- `ports[0]` (line 398): list indexing; a string yields its first
character, a dict is subscripted with the integer key `0` (absent here, so
`KeyError`), other values are not subscriptable. -/
def firstPortEntry : PyVal → Except PyErr PyVal
  | .plist (x :: _) => .ok x
  | .plist [] => .error .keyError
  | .pstr s => .ok (.pstr (String.singleton (s.toList.headD ' ')))
  | .pdict _ => .error .keyError
  | _ => .error .typeError

/-- Lines 399-407: one port entry to the `metadata['port']` string. -/
def portOfEntry (fp : PyVal) : PyVal :=
  match fp with
  | .pdict es =>
      let target := dGet es "target" (dGet es "published" (.pstr ""))
      .pstr (if pyTruthy target then pyStr target else "")
  | fp =>
      let s := pyStr fp
      if s.toList.contains ':' then .pstr (((splitChar ':' s.toList).headD []).asString)
      else .pstr s

/-- Lines 395-407: port extraction from the primary service. -/
def computePort (main_service : PyVal) : Except PyErr (Option PyVal) := do
  let ports ← pyGetD main_service "ports" (.plist [])
  if pyTruthy ports then
    let first_port ← firstPortEntry ports
    pure (some (portOfEntry first_port))
  else pure none

/-- Lines 415-423: a list of `K=V` strings becomes a dict; anything else is
stored as-is. -/
def envOfValue : PyVal → Except PyErr PyVal
  | .plist items => (kvListToDict items).map .pdict
  | v => pure v

/-- Lines 414-423: environment normalisation. -/
def computeEnv (main_service : PyVal) : Except PyErr PyVal := do
  let environment ← pyGetD main_service "environment" (.plist [])
  envOfValue environment

/-- Python subscription `v[k]` with a string key, as used on
`main_service['deploy']` and `...['resources']` (lines 426-427). -/
def pySubscript : PyVal → String → Except PyErr PyVal
  | .pdict es, k => match es.lookup k with
      | some v => .ok v
      | none => .error .keyError
  | _, _ => .error .typeError

/-- Lines 426-428: memory limit extraction. -/
def computeMemory (main_service : PyVal) : Except PyErr (Option PyVal) := do
  let hasDeploy ← pyInMember "deploy" main_service
  if hasDeploy then
    let deploy ← pySubscript main_service "deploy"
    let hasRes ← pyInMember "resources" deploy
    if hasRes then
      let resources ← pySubscript deploy "resources"
      let limits ← pyGetD resources "limits" (.pdict [])
      let mem ← pyGetD limits "memory" (.pstr "")
      pure (some mem)
    else pure none
  else pure none

/-- Title resolution, lines 317-325. -/
def resolveTitle (casaos_info label_dict conf_data : PyVal) : Except PyErr PyVal := do
  let title0 ← pyGet casaos_info "title"
  let title := localeSelectVal title0
  let labelTitle ← pyGet label_dict "casaos.title"
  let confTitle ← pyGetD conf_data "title" (.pstr "")
  pure (pyOr title (pyOr labelTitle confTitle))

/-- Icon resolution, lines 328-332. -/
def resolveIcon (casaos_info label_dict conf_data : PyVal) : Except PyErr PyVal := do
  let cIcon ← pyGet casaos_info "icon"
  let lIcon ← pyGet label_dict "casaos.icon"
  let fIcon ← pyGetD conf_data "icon" (.pstr "")
  pure (pyOr cIcon (pyOr lIcon fIcon))

/-- The tagline fallback of lines 340-345: a mapping goes through the
locale chain, a string is taken as-is, anything else leaves the (falsy)
description unchanged. -/
def taglineFallback (tagline desc1 : PyVal) : PyVal :=
  match tagline with
  | .pdict m => localeChain m
  | .pstr s => .pstr s
  | _ => desc1

/-- Description resolution with tagline fallback, lines 335-351. -/
def resolveDescription (casaos_info label_dict conf_data : PyVal) : Except PyErr PyVal := do
  let desc0 ← pyGet casaos_info "description"
  let desc1 := localeSelectVal desc0
  let desc2 ← if pyTruthy desc1 then pure desc1 else do
      let tagline ← pyGet casaos_info "tagline"
      pure (taglineFallback tagline desc1)
  let lDesc ← pyGet label_dict "casaos.description"
  let fDesc ← pyGetD conf_data "description" (.pstr "")
  pure (pyOr desc2 (pyOr lDesc fDesc))

/-- Line 362: `(metadata['title'] or conf_data.get('title', '')).lower()` —
`.lower()` raises `AttributeError` on a non-string. -/
def lowerName : PyVal → Except PyErr String
  | .pstr s => .ok (strLower s)
  | _ => .error .attributeError

/-- Category resolution (priority chain, then inference), lines 354-384.
`mtitle` is the already-resolved `metadata['title']`. -/
def resolveCategory (casaos_info label_dict conf_data mtitle : PyVal) :
    Except PyErr PyVal := do
  let cCat ← pyGet casaos_info "category"
  let lCat ← pyGet label_dict "casaos.category"
  let fCat ← pyGet conf_data "category"
  let cat0 := pyOr cCat (pyOr lCat fCat)
  let cat1 ← if pyTruthy cat0 then pure cat0 else do
      let confTitle2 ← pyGetD conf_data "title" (.pstr "")
      let app_name ← lowerName (pyOr mtitle confTitle2)
      pure (inferCategory app_name cat0)
  pure (pyOr cat1 (.pstr "Uncategorized"))

/-- Author resolution, lines 387-391. -/
def resolveAuthor (casaos_info label_dict conf_data : PyVal) : Except PyErr PyVal := do
  let cAuth ← pyGet casaos_info "author"
  let lAuth ← pyGet label_dict "casaos.author"
  let fAuth ← pyGetD conf_data "author" (.pstr "")
  pure (pyOr cAuth (pyOr lAuth fAuth))

/-- Version resolution, line 392 (the default argument is computed from the
primary service's image tag before the label lookup). -/
def resolveVersion (main_service label_dict : PyVal) : Except PyErr PyVal := do
  let image ← pyGetD main_service "image" (.pstr "")
  let vDflt ← versionDefault image
  pyGetD label_dict "casaos.version" vDflt

/-- Volumes, lines 410-411: `volumes if volumes else []`. -/
def resolveVolumes (main_service : PyVal) : Except PyErr PyVal := do
  let volumes ← pyGetD main_service "volumes" (.plist [])
  pure (if pyTruthy volumes then volumes else .plist [])

/-- The body of `extract_compose_metadata` after the falsy guard, following
the source order of lines 296-430. -/
def extractCore (compose_data conf_data : PyVal) : Except PyErr Metadata := do
  let casaos_info ← pyGetD compose_data "x-casaos" (.pdict [])
  let services ← pyGetD compose_data "services" (.pdict [])
  let main_service ← firstServiceValue services
  let labels ← pyGetD main_service "labels" (.plist [])
  let label_dict ← mkLabelDict labels
  let mtitle ← resolveTitle casaos_info label_dict conf_data
  let micon ← resolveIcon casaos_info label_dict conf_data
  let mdesc ← resolveDescription casaos_info label_dict conf_data
  let mcat ← resolveCategory casaos_info label_dict conf_data mtitle
  let mauthor ← resolveAuthor casaos_info label_dict conf_data
  let mversion ← resolveVersion main_service label_dict
  let mport ← computePort main_service
  let mvolumes ← resolveVolumes main_service
  let menv ← computeEnv main_service
  let mmemory ← computeMemory main_service
  return { title := mtitle, icon := micon, description := mdesc, category := mcat,
           author := mauthor, version := mversion, port := mport, volumes := mvolumes,
           environment := menv, memory := mmemory }

/-- `extract_compose_metadata(compose_data, conf_data)` (lines 288-430).
The `if not compose_data: return {}` guard is the `none` result; otherwise
the returned metadata dict always carries the unconditional keys, which the
`Metadata` structure records. -/
def extract_compose_metadata (compose_data conf_data : PyVal) :
    Except PyErr (Option Metadata) :=
  if pyTruthy compose_data then (extractCore compose_data conf_data).map some
  else .ok none

/-- Projection used by the theorems: the resolved `title` value, when
extraction returned normally. -/
def extractedTitle (r : Except PyErr (Option Metadata)) : Option PyVal :=
  match r with
  | .ok (some m) => some m.title
  | _ => none

/-!
## `get_docker_compose` (casaos_dash.py, lines 246-286)

We model the cache-miss path (lines 246-286): the network is a map from the
candidate filename to an HTTP response.  A response body is `some v` when
`yaml.safe_load` succeeds with value `v` (possibly `None` for an empty file)
and `none` when it raises `yaml.YAMLError`.
-/

/-- An HTTP response for one candidate compose file. -/
structure HttpResp where
  status : Nat
  body : Option PyVal

/-- Line 247: the fixed candidate order. -/
def compose_files : List String :=
  ["docker-compose.yml", "docker-compose.yaml", "compose.yml", "compose.yaml"]

/-- The fetch loop of lines 250-286: candidates are tried in order; a `200`
whose body parses is returned; a `200` with a YAML error, a `404` and any
other status all `continue`; exhaustion returns `{}` (line 286). -/
def fetchCompose (resp : String → HttpResp) : List String → PyVal
  | [] => .pdict []
  | f :: rest =>
      let r := resp f
      if r.status = 200 then
        match r.body with
        | some d => d
        | none => fetchCompose resp rest
      else fetchCompose resp rest

/-- `get_docker_compose` on a cache miss (the cached branch of lines 237-244
is bypassed; the cache write of lines 258-263 has no effect on the result). -/
def get_docker_compose (resp : String → HttpResp) : PyVal :=
  fetchCompose resp compose_files

/-!
## The main loop (casaos_dash.py, lines 445-604)

The per-folder network interactions are modelled as explicit inputs
(`FetchResults`), and the cache state for a folder as a `FolderEnv`.
-/

/-- `get_repo_stats` result shape (lines 103-108 / 123): the keys the main
loop reads are always present. -/
structure RepoStats where
  stars : Int
  forks : Int
  default_branch : String

/-- A `datetime` object as produced by `datetime.fromisoformat`: the
timestamp (modelled as an integer on a common scale) together with whether
the object is offset-aware (`tzinfo` set).  `fromisoformat` yields an aware
datetime exactly when the input string carries a UTC offset — in particular
every Z-suffixed GitHub commit date, after the `replace("Z", "+00:00")` of
line 519, parses aware — and a naive one otherwise. -/
structure PyDateTime where
  value : Int
  aware : Bool

/-- A creation-date string as returned by `get_creation_date` (line 79):
the raw ISO string together with the result of
`datetime.fromisoformat(raw.replace("Z", "+00:00"))` — `some dt` when the
parse succeeds, `none` when it raises `ValueError`. -/
structure Created where
  raw : String
  parsed : Option PyDateTime

/-- One entry of `screenshot_data["screenshots"]` (lines 161-165 / 178-182). -/
structure Screenshot where
  filename : String
  local_path : String
  url : String
deriving DecidableEq, Repr

/-- The network results consumed on a cache miss for one folder
(lines 494-513): `conf.json` content, compose document, screenshot data,
creation date and the current wall-clock ISO string. -/
structure FetchResults where
  conf : PyVal
  compose : PyVal
  screenshots : List Screenshot
  screenshot_count : Int
  created : Option Created
  now : String

/-- The canonical output record (the dict literals of lines 530-551 and
569-590 both carry exactly these keys).  Fields that those literals can set
to `None` are `Option`-valued. -/
structure AppRecord where
  title : PyVal
  description : PyVal
  icon : PyVal
  category : PyVal
  repo : String
  url : PyVal
  created : Option String
  author : PyVal
  version : PyVal
  port : Option PyVal
  volumes : PyVal
  environment : PyVal
  memory : Option PyVal
  compose_available : Bool
  stars : Int
  forks : Int
  is_new : Bool
  screenshots : List Screenshot
  screenshot_count : Int
  updated_at : String

/-- Serialized form of a `Screenshot` (the dict of lines 161-165). -/
def serializeScreenshot (s : Screenshot) : PyVal :=
  .pdict [("filename", .pstr s.filename), ("local_path", .pstr s.local_path),
          ("url", .pstr s.url)]

/-- The JSON object written for an `AppRecord`, with the key order of the
dict literal at lines 530-551 (the error literal at lines 569-590 uses the
same keys in the same order). -/
def serializeAppRecord (r : AppRecord) : List (String × PyVal) :=
  [("title", r.title),
   ("description", r.description),
   ("icon", r.icon),
   ("category", r.category),
   ("repo", .pstr r.repo),
   ("url", r.url),
   ("created", match r.created with | some s => .pstr s | none => .pnone),
   ("author", r.author),
   ("version", r.version),
   ("port", r.port.getD .pnone),
   ("volumes", r.volumes),
   ("environment", r.environment),
   ("memory", r.memory.getD .pnone),
   ("compose_available", .pbool r.compose_available),
   ("stars", .pint r.stars),
   ("forks", .pint r.forks),
   ("is_new", .pbool r.is_new),
   ("screenshots", .plist (r.screenshots.map serializeScreenshot)),
   ("screenshot_count", .pint r.screenshot_count),
   ("updated_at", .pstr r.updated_at)]

/-- Lines 515-525: novelty.  `last_run_time` is parsed (line 454) from the
string the program itself wrote with `datetime.now().isoformat()` (line
599), which carries no UTC offset, so it is always a *naive* datetime;
hence its timestamp is just an `Option Int` here.  Inside
`if last_run_time and created:` the `try:` body parses the creation date
and evaluates `created_dt > last_run_time`; when `created_dt` is
offset-aware (any Z-suffixed commit date) that comparison of an aware with
a naive datetime raises `TypeError`, the bare `except: pass` swallows it,
and `is_new` keeps its initial `False` — as it does when `fromisoformat`
itself raises.  Only a naive `created_dt` actually gets compared.
Otherwise the `elif not os.path.exists(cache_file):` branch marks the app
new exactly when no cache file existed. -/
def computeIsNew (last_run_time : Option Int) (created : Option Created)
    (cacheFileExists : Bool) : Bool :=
  match last_run_time, created with
  | some t0, some c =>
      if c.raw != "" then
        match c.parsed with
        | some dt => if dt.aware then false else decide (dt.value > t0)
        | none => false
      else !cacheFileExists
  | _, _ => !cacheFileExists

/-- The values the `try:` body of lines 489-525 computes fallibly before
building the record dict: the resolved metadata and the `conf.get` reads of
lines 506-512. -/
structure FolderPieces where
  compose_metadata : Option Metadata
  confTitle : PyVal
  confDesc : PyVal
  confIcon : PyVal
  confWebsite : PyVal
  confUrl : PyVal

/-- The fallible part of the per-folder `try:` body: resolve the compose
metadata (line 504) and perform the `conf.get` lookups of lines 506-512 (all
of which raise `AttributeError` when `conf.json` parsed to a non-dict). -/
def gatherFolder (compose conf : PyVal) : Except PyErr FolderPieces := do
  let compose_metadata ← extract_compose_metadata compose conf
  let confTitle ← pyGet conf "title"
  let confDesc ← pyGet conf "description"
  let confIcon ← pyGetD conf "icon" (.pstr "https://via.placeholder.com/64")
  let confWebsite ← pyGet conf "website"
  let confUrl ← pyGet conf "url"
  return { compose_metadata := compose_metadata, confTitle := confTitle,
           confDesc := confDesc, confIcon := confIcon,
           confWebsite := confWebsite, confUrl := confUrl }

/-- The dict literal of lines 530-551, assembled from the gathered pieces
(`compose_metadata.get(...)` on the `{}` result of a falsy compose document
yields `None`, modelled by the `none` case of each metadata projection). -/
def assembleRecord (owner repo folder : String) (stats : RepoStats)
    (last_run_time : Option Int) (cacheFileExists : Bool) (fr : FetchResults)
    (p : FolderPieces) : AppRecord :=
  let branch := stats.default_branch
  let title := pyOr (match p.compose_metadata with | some m => m.title | none => .pnone)
    (pyOr p.confTitle (.pstr folder))
  let desc := pyOr (match p.compose_metadata with | some m => m.description | none => .pnone)
    (pyOr p.confDesc (.pstr "No description available."))
  let icon := pyOr (match p.compose_metadata with | some m => m.icon | none => .pnone) p.confIcon
  let category := match p.compose_metadata with | some m => m.category | none => .pstr "Uncategorized"
  let author := match p.compose_metadata with | some m => m.author | none => .pstr "Unknown"
  let version := match p.compose_metadata with | some m => m.version | none => .pstr "Unknown"
  let website := pyOr p.confWebsite (pyOr p.confUrl
    (.pstr ("https://github.com/" ++ owner ++ "/" ++ repo ++ "/tree/" ++ branch
            ++ "/Apps/" ++ folder)))
  { title := title, description := desc, icon := icon, category := category,
    repo := owner ++ "/" ++ repo, url := website,
    created := fr.created.map (fun c => c.raw),
    author := author, version := version,
    port := (match p.compose_metadata with | some m => m.port | none => none),
    volumes := (match p.compose_metadata with | some m => m.volumes | none => .plist []),
    environment := (match p.compose_metadata with | some m => m.environment | none => .pdict []),
    memory := (match p.compose_metadata with | some m => m.memory | none => none),
    compose_available := pyTruthy fr.compose,
    stars := stats.stars, forks := stats.forks,
    is_new := computeIsNew last_run_time fr.created cacheFileExists,
    screenshots := fr.screenshots, screenshot_count := fr.screenshot_count,
    updated_at := fr.now }

/-- The cache-miss body of the per-folder `try:` block, lines 489-551.
Every step that can raise in Python is inside `gatherFolder`; the caller
(line 562) catches any error. -/
def processFolder (owner repo folder : String) (stats : RepoStats)
    (last_run_time : Option Int) (cacheFileExists : Bool) (fr : FetchResults) :
    Except PyErr AppRecord :=
  (gatherFolder fr.compose fr.conf).map
    (assembleRecord owner repo folder stats last_run_time cacheFileExists fr)

/-- The `except Exception` fallback of lines 562-590: the minimal
placeholder record. -/
def placeholderRecord (owner repo folder : String) (stats : RepoStats) (now : String) :
    AppRecord :=
  { title := .pstr folder,
    description := .pstr "Error loading app data",
    icon := .pstr "https://via.placeholder.com/64",
    category := .pstr "Error",
    repo := owner ++ "/" ++ repo,
    url := .pstr ("https://github.com/" ++ owner ++ "/" ++ repo ++ "/tree/"
                  ++ stats.default_branch ++ "/Apps/" ++ folder),
    created := none, author := .pstr "Unknown", version := .pstr "Unknown",
    port := none, volumes := .plist [], environment := .pdict [], memory := none,
    compose_available := false, stars := stats.stars, forks := stats.forks,
    is_new := false, screenshots := [], screenshot_count := 0, updated_at := now }

/-- The cache state and network results for one folder in one run. -/
structure FolderEnv where
  /-- A fresh, readable cached record (lines 476-485): reused verbatim. -/
  cached : Option AppRecord
  /-- `os.path.exists(cache_file)` at line 523. -/
  cacheFileExists : Bool
  fetch : FetchResults

/-- The record appended for one folder (lines 469-592): a fresh cache hit is
reused; otherwise the `try:` body runs and any raised error degrades to the
placeholder record. -/
def folderRecord (owner repo folder : String) (stats : RepoStats)
    (last_run_time : Option Int) (env : FolderEnv) : AppRecord :=
  match env.cached with
  | some r => r
  | none =>
      match processFolder owner repo folder stats last_run_time
          env.cacheFileExists env.fetch with
      | .ok r => r
      | .error _ => placeholderRecord owner repo folder stats env.fetch.now

/-- One configured repository together with its listed app folders and its
(per-repo, cached) statistics. -/
structure RepoInput where
  owner : String
  name : String
  folders : List String
  stats : RepoStats

/-- The double loop of lines 461-592, producing `apps` in iteration order. -/
def runPipeline (repos : List RepoInput) (last_run_time : Option Int)
    (env : String → String → String → FolderEnv) : List AppRecord :=
  repos.flatMap (fun ri =>
    ri.folders.map (fun f =>
      folderRecord ri.owner ri.name f ri.stats last_run_time (env ri.owner ri.name f)))

/-- Line 604: the sort key `x["created"] or ""`. -/
def sortKey (r : AppRecord) : String := r.created.getD ""

/-- Python string comparison (lexicographic by code point), evaluated on the
character lists. -/
def pyStrLe (a b : String) : Bool := decide (a.toList ≤ b.toList)

/-- Line 604: `apps.sort(key=lambda x: x["created"] or "", reverse=True)` —
a stable sort, descending by key. -/
def sortApps (l : List AppRecord) : List AppRecord :=
  l.mergeSort (fun a b => pyStrLe (sortKey b) (sortKey a))

/-- The final output collection handed to the renderer (lines 592-604). -/
def finalOutput (repos : List RepoInput) (last_run_time : Option Int)
    (env : String → String → String → FolderEnv) : List AppRecord :=
  sortApps (runPipeline repos last_run_time env)

/-!
## `generate_cosmos_market.py`

The exporter reads `apps_data.json`, whose `apps` entries are the records
produced by the aggregation pipeline (data model of the spec, section 3):
`title`/`description` are strings or locale mappings, the remaining consumed
fields are strings, booleans and screenshot objects.  `SrcApp` is that input
shape.
-/

/-- A title/description value: a plain string or a locale→string mapping. -/
inductive LocStr where
  | str (s : String)
  | locale (m : List (String × String))
deriving DecidableEq, Repr

/-- The input record shape consumed by the exporter; `compose_available`
absent is folded into `false` (`app.get('compose_available', False)`). -/
structure SrcApp where
  title : LocStr
  description : LocStr
  repo : String
  url : String
  icon : String
  author : String
  version : String
  port : Option String
  category : String
  compose_available : Bool
  screenshots : List Screenshot
deriving DecidableEq, Repr

/-- Python `a or b` on an optional string operand (`None` and `""` falsy). -/
def pyOrS (a : Option String) (b : String) : String :=
  match a with
  | some s => if s != "" then s else b
  | none => b

/-- Lines 99-100 / 104-105 / 72-73: locale selection of the exporter.  Note
the distinct order (`en_us`, `en`, `en_US`), the first-value fallback
`str(list(v.values())[0])`, and — because the Python conditional expression
binds looser than `or` — the whole chain is conditional on the dict being
truthy, with `dflt` for an empty dict. -/
def cosmosLocSelect (m : List (String × String)) (dflt : String) : String :=
  if m.isEmpty then dflt
  else pyOrS (m.lookup "en_us") (pyOrS (m.lookup "en")
        (pyOrS (m.lookup "en_US") (m.headD ("", "")).2))

/-- A `title`/`description` field resolved to a string as in lines 98-105:
a plain string is used unchanged, a dict goes through `cosmosLocSelect`. -/
def locToStr (v : LocStr) (dflt : String) : String :=
  match v with
  | .str s => s
  | .locale m => cosmosLocSelect m dflt

/-- `extract_app_folder_from_url` (lines 11-17): `re.search` of
`/Apps/([^/]+)/?$` — an optional trailing slash is dropped, the final
segment must be non-empty and slash-free, and the text before it must end
in `/Apps/`. -/
def extract_app_folder_from_url (url : String) : Option String :=
  let cs := url.toList
  let cs2 := if cs.getLast? == some '/' then cs.dropLast else cs
  let seg := (cs2.reverse.takeWhile (fun c => c != '/')).reverse
  let pre := cs2.take (cs2.length - seg.length)
  if !seg.isEmpty && decide ("/Apps/".toList <:+ pre) then some seg.asString else none

/-- The scan behind `re.search(r'/tree/([^/]+)/', url)`: at each position,
the literal `/tree/` followed by a non-empty slash-free run followed by a
literal `/`; the first matching position wins. -/
def branchScan : List Char → Option String
  | [] => none
  | c :: cs =>
      let l := c :: cs
      if decide ("/tree/".toList <+: l) then
        let rest := l.drop 6
        let seg := rest.takeWhile (fun x => x != '/')
        if !seg.isEmpty && seg.length < rest.length then some seg.asString
        else branchScan cs
      else branchScan cs

/-- `get_branch_from_url` (lines 19-24). -/
def get_branch_from_url (url : String) : String := (branchScan url.toList).getD "main"

/-- Python `\s` on the characters surviving the first regex filter
(`[ \t\n\r\f\v]`; non-ASCII whitespace does not occur in the fields the
pipeline produces). -/
def isPySpace (c : Char) : Bool :=
  c == ' ' || c == '\t' || c == '\n' || c == '\r' || c == '\x0b' || c == '\x0c'

/-- Worker for `wsRuns`: the flag records whether the previous character was
whitespace (so a whitespace run only emits one hyphen). -/
def wsRunsAux : Bool → List Char → List Char
  | _, [] => []
  | inSpace, c :: cs =>
      if isPySpace c then
        if inSpace then wsRunsAux true cs else '-' :: wsRunsAux true cs
      else c :: wsRunsAux false cs

/-- `re.sub(r'\s+', '-', _)`: each maximal whitespace run becomes one `-`. -/
def wsRuns (l : List Char) : List Char := wsRunsAux false l

/-- `sanitize_id` (lines 26-31): drop characters outside `[a-zA-Z0-9\s-]`,
collapse whitespace runs to hyphens, strip leading/trailing hyphens,
lowercase. -/
def sanitize_id (name : String) : String :=
  let cleaned := name.toList.filter (fun c => c.isAlphanum || isPySpace c || c == '-')
  let hyphened := wsRuns cleaned
  let stripped := ((hyphened.dropWhile (fun c => c == '-')).reverse.dropWhile
    (fun c => c == '-')).reverse
  (stripped.map Char.toLower).asString

/-- Lines 42-56: the category→extra-tags table (order significant). -/
def category_tags : List (String × List String) :=
  [("Media", ["media", "streaming", "entertainment"]),
   ("Downloader", ["download", "torrent", "usenet"]),
   ("Cloud", ["cloud", "storage", "sync"]),
   ("Database", ["database", "sql", "data"]),
   ("Network", ["network", "dns", "proxy"]),
   ("Home Automation", ["home-automation", "iot", "smart-home"]),
   ("Utilities", ["utilities", "tools"]),
   ("AI", ["ai", "machine-learning", "llm"]),
   ("Notes", ["notes", "productivity", "documentation"]),
   ("Developer", ["developer", "devops", "git"]),
   ("Finance", ["finance", "budget", "money"]),
   ("Photos", ["photos", "gallery", "images"]),
   ("Documents", ["documents", "office", "pdf"])]

/-- `get_tags_from_category` (lines 33-67).  `list(set(tags))` has
unspecified order in CPython; we model it as first-occurrence
deduplication. -/
def get_tags_from_category (category : String) : List String :=
  if category = "" ∨ category = "Uncategorized" then ["self-hosted"]
  else
    let tags := [category]
    let tags := match category_tags.find?
        (fun p => substrCheck (strLower p.1) (strLower category)) with
      | some p => tags ++ p.2
      | none => tags
    let tags := if tags.contains "self-hosted" then tags else tags ++ ["self-hosted"]
    tags.eraseDups

/-- `format_long_description` (lines 69-92). -/
def format_long_description (app : SrcApp) : String :=
  let desc := locToStr app.description ""
  let meta :=
    (if app.author != "" && app.author != "Unknown"
     then ["<b>Author:</b> " ++ app.author] else []) ++
    (if app.version != "" && app.version != "Unknown"
     then ["<b>Version:</b> " ++ app.version] else []) ++
    (match app.port with
     | some p => if p != "" then ["<b>Default Port:</b> " ++ p] else []
     | none => [])
  let parts := ["<p>" ++ desc ++ "</p>"] ++
    (if meta.isEmpty then [] else ["<p>" ++ String.intercalate " | " meta ++ "</p>"]) ++
    ["<p><i>Source: CasaOS App Store (" ++ app.repo ++ ")</i></p>"]
  String.intercalate "\n" parts

/-- One entry of the generated `servapps.json` (the dict of lines 127-141). -/
structure CosmosApp where
  name : String
  longDescription : String
  description : String
  tags : List String
  repository : String
  image : String
  supported_architectures : List String
  id : String
  screenshots : List String
  logo : List String
  icon : String
  compose : String
deriving DecidableEq, Repr

/-- `convert_app_to_cosmos` (lines 94-143). -/
def convert_app_to_cosmos (app : SrcApp) : CosmosApp :=
  let title := locToStr app.title "Unknown"
  let desc := locToStr app.description ""
  let app_url := app.url
  let folder := extract_app_folder_from_url app_url
  let branch := get_branch_from_url app_url
  let repo := app.repo
  let compose_url := match folder with
    | some f =>
        if repo != "" then
          "https://raw.githubusercontent.com/" ++ repo ++ "/" ++ branch
            ++ "/Apps/" ++ f ++ "/docker-compose.yml"
        else ""
    | none => ""
  let shots := (app.screenshots.filter (fun s => s.url != "")).map (fun s => s.url)
  { name := title,
    longDescription := format_long_description app,
    description := if desc != "" then (desc.toList.take 200).asString
                   else "No description available.",
    tags := get_tags_from_category app.category,
    repository := if app_url != "" then app_url else "https://github.com/" ++ repo,
    image := "",
    supported_architectures := ["amd64", "arm64"],
    id := sanitize_id title,
    screenshots := shots,
    logo := [],
    icon := app.icon,
    compose := compose_url }

/-- Line 183: `app.get('repo', '').split('/')[-1][:10].lower()`. -/
def repoSuffix (app : SrcApp) : String :=
  strLower ((((splitChar '/' app.repo.toList).getLastD []).take 10).asString)

/-- The `while cosmos_app['id'] in seen_ids:` loop of lines 187-191, with
enough fuel to reach a fresh identifier (within `seen.length + 1` candidate
counters one is always unused, see `resolveIdLoop_fresh`).  With that much
fuel the result equals the Python loop's. -/
def resolveIdLoop (seen : List String) (origId : String) : Nat → Nat → String → String
  | 0, _, cur => cur
  | fuel + 1, counter, cur =>
      if cur ∈ seen then
        resolveIdLoop seen origId fuel (counter + 1) (origId ++ "-" ++ natToDec counter)
      else cur

/-- The conversion loop of `main` (lines 166-193): skip records without
compose, skip records with no constructible compose URL, then make the slug
unique against `seen_ids` (repo suffix, then numeric counter). -/
def processApps : List SrcApp → List String → List CosmosApp
  | [], _ => []
  | app :: rest, seen =>
      if !app.compose_available then processApps rest seen
      else
        let c := convert_app_to_cosmos app
        if c.compose == "" then processApps rest seen
        else
          let original_id := c.id
          let start := if original_id ∈ seen
            then original_id ++ "-" ++ repoSuffix app else original_id
          let newId := resolveIdLoop seen original_id (seen.length + 1) 1 start
          { c with id := newId } :: processApps rest (newId :: seen)

/-- The generated marketplace collection (`cosmos_apps` at line 200). -/
def generateMarket (apps : List SrcApp) : List CosmosApp := processApps apps []

/-!
## Well-shaped inputs for the resolver (for claim C8)

`conf.json` and compose documents of the shapes the app stores actually
publish: mappings whose nested fields carry the expected types.  The family
deliberately includes empty and partial structures.
-/

/-- Renders an optional entry of a Python dict. -/
def optEntry (k : String) : Option PyVal → List (String × PyVal)
  | some v => [(k, v)]
  | none => []

/-- Renders a string or locale-mapping value. -/
def LocStr.render : LocStr → PyVal
  | .str s => .pstr s
  | .locale m => .pdict (m.map (fun p => (p.1, PyVal.pstr p.2)))

/-- Service labels: either the compose mapping form or the `K=V` list form. -/
inductive WFLabels where
  | ldict (m : List (String × String))
  | llist (items : List String)

/-- Renders well-shaped labels. -/
def WFLabels.render : WFLabels → PyVal
  | .ldict m => .pdict (m.map (fun p => (p.1, PyVal.pstr p.2)))
  | .llist items => .plist (items.map PyVal.pstr)

/-- One entry of a service `ports` list: a bare number, a
`"host:container"`-style string, or the structured mapping form. -/
inductive WFPort where
  | num (n : Int)
  | str (s : String)
  | pmap (target : Option PyVal) (published : Option PyVal)

/-- Renders a well-shaped port entry. -/
def WFPort.render : WFPort → PyVal
  | .num n => .pint n
  | .str s => .pstr s
  | .pmap t p => .pdict (optEntry "target" t ++ optEntry "published" p)

/-- A service `environment`: mapping form or `K=V` list form. -/
inductive WFEnv where
  | edict (m : List (String × PyVal))
  | elist (items : List String)

/-- Renders a well-shaped environment. -/
def WFEnv.render : WFEnv → PyVal
  | .edict m => .pdict m
  | .elist items => .plist (items.map PyVal.pstr)

/-- A `deploy.resources` block (the `limits` mapping may be absent). -/
structure WFResources where
  limits : Option (List (String × PyVal))

/-- Renders a well-shaped resources block. -/
def WFResources.render (r : WFResources) : PyVal :=
  .pdict (match r.limits with
          | some l => [("limits", .pdict l)]
          | none => [])

/-- A service `deploy` block. -/
structure WFDeploy where
  resources : Option WFResources

/-- Renders a well-shaped deploy block. -/
def WFDeploy.render (d : WFDeploy) : PyVal :=
  .pdict (match d.resources with
          | some r => [("resources", r.render)]
          | none => [])

/-- A well-shaped compose service: every consumed field is optional and has
its expected type (`volumes` is only truthiness-tested, so any value). -/
structure WFService where
  labels : Option WFLabels
  image : Option String
  ports : Option (List WFPort)
  volumes : Option PyVal
  environment : Option WFEnv
  deploy : Option WFDeploy

/-- The entry list of a rendered well-shaped service. -/
def WFService.entries (s : WFService) : List (String × PyVal) :=
  (optEntry "labels" (s.labels.map WFLabels.render)) ++
  ((optEntry "image" (s.image.map PyVal.pstr)) ++
  ((optEntry "ports" (s.ports.map (fun ps => .plist (ps.map WFPort.render)))) ++
  ((optEntry "volumes" s.volumes) ++
  ((optEntry "environment" (s.environment.map WFEnv.render)) ++
  ((optEntry "deploy" (s.deploy.map WFDeploy.render)) ++ ([] : List (String × PyVal)))))))

/-- Renders a well-shaped service. -/
def WFService.render (s : WFService) : PyVal := .pdict s.entries

/-- A well-shaped `x-casaos` block: `title` is a string or locale mapping
(it feeds `str.lower()` in the category inference); the other fields are
never string-operated, so any value is harmless there. -/
structure XCasaos where
  title : Option LocStr
  description : Option PyVal
  tagline : Option PyVal
  category : Option PyVal
  author : Option PyVal
  icon : Option PyVal

/-- The entry list of a rendered well-shaped `x-casaos` block. -/
def XCasaos.entries (x : XCasaos) : List (String × PyVal) :=
  (optEntry "title" (x.title.map LocStr.render)) ++
  ((optEntry "description" x.description) ++
  ((optEntry "tagline" x.tagline) ++
  ((optEntry "category" x.category) ++
  ((optEntry "author" x.author) ++
  ((optEntry "icon" x.icon) ++ ([] : List (String × PyVal)))))))

/-- Renders a well-shaped `x-casaos` block. -/
def XCasaos.render (x : XCasaos) : PyVal := .pdict x.entries

/-- A well-shaped compose document. -/
structure WFCompose where
  xcasaos : Option XCasaos
  services : List (String × WFService)

/-- Renders a well-shaped compose document. -/
def WFCompose.render (c : WFCompose) : PyVal :=
  .pdict ((optEntry "x-casaos" (c.xcasaos.map XCasaos.render)) ++
          [("services", .pdict (c.services.map (fun p => (p.1, p.2.render))))])

/-- A well-shaped `conf.json`: `title` is a string (it can feed
`str.lower()`); the other consumed fields are never string-operated. -/
structure WFConf where
  title : Option String
  description : Option PyVal
  icon : Option PyVal
  category : Option PyVal
  author : Option PyVal

/-- The entry list of a rendered well-shaped `conf.json`. -/
def WFConf.entries (k : WFConf) : List (String × PyVal) :=
  (optEntry "title" (k.title.map PyVal.pstr)) ++
  ((optEntry "description" k.description) ++
  ((optEntry "icon" k.icon) ++
  ((optEntry "category" k.category) ++
  ((optEntry "author" k.author) ++ ([] : List (String × PyVal))))))

/-- Renders a well-shaped `conf.json`. -/
def WFConf.render (k : WFConf) : PyVal := .pdict k.entries

/-!
## Claim-side definitions (from the specification's words)

These are NOT translated from the source; they state what the spec claims,
for comparison with the source-derived definitions above.
-/

/-- Modelled from the spec (claim C1): locale selection "returns the value
under key `en_US` if that key is present, else the value under `en_us`,
else the value under `en`, else the first value of the mapping in iteration
order". -/
def localeSelectSpec (m : List (String × String)) : String :=
  match m.lookup "en_US" with
  | some v => v
  | none =>
    match m.lookup "en_us" with
    | some v => v
    | none =>
      match m.lookup "en" with
      | some v => v
      | none => (m.headD ("", "")).2

/-- The amended locale-selection rule (what line 319 actually computes):
`en_US`, else `en_us`, else `en`, else the empty string. -/
def localeSelectCode (m : List (String × String)) : String :=
  match m.lookup "en_US" with
  | some v => v
  | none =>
    match m.lookup "en_us" with
    | some v => v
    | none =>
      match m.lookup "en" with
      | some v => v
      | none => ""

/-- Claim C4's priority rule: vendor-extension title if non-empty, else the
service label if present and non-empty, else the conf-file title
("present means non-empty"). -/
def titlePriorityClaim (vendor label : Option String) (conf : String) : String :=
  match vendor with
  | some a => if a != "" then a else (match label with
      | some b => if b != "" then b else conf
      | none => conf)
  | none => match label with
      | some b => if b != "" then b else conf
      | none => conf

/-- The compose document of claim C4: an `x-casaos` block whose `title` is
present exactly when `vendor` is, and one service whose `casaos.title`
label is present exactly when `label` is. -/
def composeC4 (vendor label : Option String) : PyVal :=
  .pdict ([("x-casaos", .pdict (match vendor with
            | some a => [("title", .pstr a)]
            | none => []))] ++
          [("services", .pdict [("app", .pdict (match label with
            | some b => [("labels", .pdict [("casaos.title", .pstr b)])]
            | none => []))])])

/-- The conf data of claim C4. -/
def confC4 (c : String) : PyVal := .pdict [("title", .pstr c)]

/-- The compose document whose only content is an `x-casaos` title carrying
a locale mapping (claims C1). -/
def composeTitleOnly (m : List (String × String)) : PyVal :=
  .pdict [("x-casaos", .pdict [("title", .pdict (m.map (fun p => (p.1, PyVal.pstr p.2))))])]

/-- True when some serialized field of the record is JSON `null`. -/
def serializedHasNullField (r : AppRecord) : Bool :=
  (serializeAppRecord r).any (fun p => match p.2 with | .pnone => true | _ => false)

/-- The fixed key set of every serialized record (lines 530-551 and
569-590). -/
def appRecordKeys : List String :=
  ["title", "description", "icon", "category", "repo", "url", "created", "author",
   "version", "port", "volumes", "environment", "memory", "compose_available",
   "stars", "forks", "is_new", "screenshots", "screenshot_count", "updated_at"]

/-!
## Concrete inputs used by witnesses and counterexamples
-/

/-- The response map of claim C5's example: `compose.yml` answers 404 and
`docker-compose.yml` answers 200. -/
def respC5 : String → HttpResp := fun f =>
  if f = "docker-compose.yml" then ⟨200, some (.pstr "dc-content")⟩
  else ⟨404, none⟩

/-- Fetch results that make the folder's `try:` body raise: `conf.json`
parsed to a (truthy) JSON array, so `conf.get("title")` raises
`AttributeError` (the compose document is falsy, so the resolver returns
`{}` without touching `conf`; the failure occurs at line 506). -/
def failingFetch : FetchResults :=
  { conf := .plist [.pstr "x"], compose := .pdict [], screenshots := [],
    screenshot_count := 0, created := none, now := "2026-01-01T00:00:00" }

/-- Benign fetch results (empty conf and compose); the Z-suffixed creation
date parses to an offset-aware datetime. -/
def okFetch : FetchResults :=
  { conf := .pdict [], compose := .pdict [], screenshots := [],
    screenshot_count := 0,
    created := some ⟨"2025-01-02T00:00:00Z", some ⟨5, true⟩⟩,
    now := "2026-01-01T00:00:00" }

/-- Benign fetch results whose creation date carries no offset and hence
parses to a naive datetime. -/
def okFetchNaive : FetchResults :=
  { conf := .pdict [], compose := .pdict [], screenshots := [],
    screenshot_count := 0,
    created := some ⟨"2025-01-02T00:00:00", some ⟨5, false⟩⟩,
    now := "2026-01-01T00:00:00" }

/-- Stats for the concrete pipeline runs. -/
def statsEx : RepoStats := { stars := 7, forks := 3, default_branch := "main" }

/-- A concrete repository with one failing folder and one healthy sibling. -/
def reposEx : List RepoInput :=
  [{ owner := "o", name := "r", folders := ["bad", "good"], stats := statsEx }]

/-- The per-folder environment for `reposEx`: folder `bad` hits the failing
fetch, everything else the benign one; no cache entries exist. -/
def envEx : String → String → String → FolderEnv := fun _ _ folder =>
  { cached := none, cacheFileExists := false,
    fetch := if folder = "bad" then failingFetch else okFetch }

/-!
## Auxiliary definitions for the verification
-/

/-- Decodes a decimal character list back to the number (left inverse of
`decDigits`, used to prove `natToDec` injective). -/
def decodeDec (cs : List Char) : Nat :=
  cs.foldl (fun acc c => acc * 10 + (c.toNat - 48)) 0
def fetchNoCreated : FetchResults :=
  { conf := .pdict [], compose := .pdict [], screenshots := [],
    screenshot_count := 0, created := none, now := "2026-01-01T00:00:00" }
def emptyPieces : FolderPieces :=
  { compose_metadata := none, confTitle := .pnone, confDesc := .pnone,
    confIcon := .pstr "", confWebsite := .pnone, confUrl := .pnone }
def IsStr (v : PyVal) : Prop := ∃ s, v = .pstr s

def IsStrD (es : List (String × PyVal)) : Prop := ∀ p ∈ es, IsStr p.2

def TitleShape (cs : List (String × PyVal)) : Prop :=
  (∃ m, dGet cs "title" .pnone = .pdict m ∧ IsStrD m) ∨
  IsStr (dGet cs "title" .pnone) ∨ dGet cs "title" .pnone = .pnone

def MSFacts (ms : List (String × PyVal)) : Prop :=
  ((∃ items, dGet ms "labels" (.plist []) = .plist items ∧ ∀ i ∈ items, IsStr i) ∨
   (∃ es, dGet ms "labels" (.plist []) = .pdict es ∧ IsStrD es)) ∧
  IsStr (dGet ms "image" (.pstr "")) ∧
  (∃ items, dGet ms "ports" (.plist []) = .plist items) ∧
  ((∃ items, dGet ms "environment" (.plist []) = .plist items ∧ ∀ i ∈ items, IsStr i) ∨
   (∀ items, dGet ms "environment" (.plist []) ≠ .plist items)) ∧
  (∀ v, ms.lookup "deploy" = some v →
     ∃ ds, v = .pdict ds ∧
       ∀ w, ds.lookup "resources" = some w →
         ∃ rs, w = .pdict rs ∧
           ∀ u, rs.lookup "limits" = some u → ∃ ls, u = .pdict ls)
/-! ## Helper lemmas -/

theorem pyOr_last_pstr (a b : PyVal) (s : String) :
    pyOr a (pyOr b (.pstr s)) ≠ .pnone := by
  unfold pyOr
  split
  · intro h; subst h; simp [pyTruthy] at *
  · split
    · intro h; subst h; simp [pyTruthy] at *
    · intro h; cases h

/-- Claim C5: compose-file resolution tries the four filename candidates in
the fixed order docker-compose.yml, docker-compose.yaml, compose.yml,
compose.yaml and returns the parsed content of the first candidate
answering HTTP 200 (the model is sequential, so the result cannot depend on
response arrival times). -/
theorem compose_resolution_first_200 (resp : String → HttpResp) (f : String) (d : PyVal)
    (hmem : f ∈ compose_files)
    (h200 : (resp f).status = 200)
    (hfirst : ∀ g ∈ compose_files, (resp g).status = 200 →
      compose_files.indexOf f ≤ compose_files.indexOf g)
    (hbody : (resp f).body = some d) :
    get_docker_compose resp = d := by
  have hmem' := hmem
  simp only [compose_files, List.mem_cons, List.not_mem_nil, or_false] at hmem'
  rcases hmem' with rfl | rfl | rfl | rfl
  · simp [get_docker_compose, compose_files, fetchCompose, h200, hbody]
  · have h1 : ¬ (resp "docker-compose.yml").status = 200 := by
      intro h
      have := hfirst "docker-compose.yml" (by simp [compose_files]) h
      exact absurd this (by decide)
    simp [get_docker_compose, compose_files, fetchCompose, h1, h200, hbody]
  · have h1 : ¬ (resp "docker-compose.yml").status = 200 := by
      intro h
      have := hfirst "docker-compose.yml" (by simp [compose_files]) h
      exact absurd this (by decide)
    have h2 : ¬ (resp "docker-compose.yaml").status = 200 := by
      intro h
      have := hfirst "docker-compose.yaml" (by simp [compose_files]) h
      exact absurd this (by decide)
    simp [get_docker_compose, compose_files, fetchCompose, h1, h2, h200, hbody]
  · have h1 : ¬ (resp "docker-compose.yml").status = 200 := by
      intro h
      have := hfirst "docker-compose.yml" (by simp [compose_files]) h
      exact absurd this (by decide)
    have h2 : ¬ (resp "docker-compose.yaml").status = 200 := by
      intro h
      have := hfirst "docker-compose.yaml" (by simp [compose_files]) h
      exact absurd this (by decide)
    have h3 : ¬ (resp "compose.yml").status = 200 := by
      intro h
      have := hfirst "compose.yml" (by simp [compose_files]) h
      exact absurd this (by decide)
    simp [get_docker_compose, compose_files, fetchCompose, h1, h2, h3, h200, hbody]

/-- Witness for C5, at the claim's example responses
(compose.yml answering 404 and docker-compose.yml answering 200). -/
theorem compose_resolution_witness :
    get_docker_compose respC5 = .pstr "dc-content" :=
  compose_resolution_first_200 respC5 "docker-compose.yml" (.pstr "dc-content")
    (by simp [compose_files]) (by simp [respC5])
    (by
      intro g hg h
      have h0 : compose_files.indexOf "docker-compose.yml" = 0 := by decide
      omega) (by simp [respC5])

theorem pyStrLe_trans (a b c : AppRecord)
    (h1 : pyStrLe (sortKey b) (sortKey a) = true) (h2 : pyStrLe (sortKey c) (sortKey b) = true) :
    pyStrLe (sortKey c) (sortKey a) = true := by
  simp only [pyStrLe, decide_eq_true_eq] at *
  exact le_trans h2 h1

theorem pyStrLe_total (a b : AppRecord) :
    (pyStrLe (sortKey b) (sortKey a) || pyStrLe (sortKey a) (sortKey b)) = true := by
  simp only [pyStrLe, Bool.or_eq_true, decide_eq_true_eq]
  exact le_total _ _

/-- Claim C7: the final output collection is a permutation of the produced
records, sorted by the `created` key in descending order, and every record
whose `created` is missing (sort key the empty string) appears after every
record with a defined `created`. -/
theorem final_output_sorted (repos : List RepoInput) (lr : Option Int)
    (env : String → String → String → FolderEnv) :
    (finalOutput repos lr env).Perm (runPipeline repos lr env) ∧
    List.Pairwise (fun a b => pyStrLe (sortKey b) (sortKey a) = true) (finalOutput repos lr env) ∧
    List.Pairwise (fun a b => sortKey a = "" → sortKey b = "") (finalOutput repos lr env) := by
  refine ⟨List.mergeSort_perm _ _, ?_, ?_⟩
  · exact @List.sorted_mergeSort AppRecord
      (fun a b => pyStrLe (sortKey b) (sortKey a))
      (fun a b c h1 h2 => pyStrLe_trans a b c h1 h2)
      (fun a b => pyStrLe_total a b) (runPipeline repos lr env)
  · have hs := @List.sorted_mergeSort AppRecord
      (fun a b => pyStrLe (sortKey b) (sortKey a))
      (fun a b c h1 h2 => pyStrLe_trans a b c h1 h2)
      (fun a b => pyStrLe_total a b) (runPipeline repos lr env)
    refine hs.imp ?_
    intro a b h ha
    simp only [pyStrLe, decide_eq_true_eq] at h
    rw [ha] at h
    have hb : (sortKey b).toList = [] := le_antisymm h List.nil_le
    have : (sortKey b).toList = "".toList := hb
    exact String.toList_inj.mp this

theorem record_mem_runPipeline (repos : List RepoInput) (lr : Option Int)
    (env : String → String → String → FolderEnv)
    (ri : RepoInput) (hri : ri ∈ repos) (f : String) (hf : f ∈ ri.folders) :
    folderRecord ri.owner ri.name f ri.stats lr (env ri.owner ri.name f)
      ∈ runPipeline repos lr env := by
  unfold runPipeline
  exact List.mem_flatMap.mpr ⟨ri, hri, List.mem_map_of_mem _ hf⟩

/-- Claim C6: a failure raised while assembling one folder's record (on a
cache miss) yields a placeholder record with category "Error" and
`compose_available = false` in the final output, and every folder of every
repository still contributes its record to the final output collection. -/
theorem folder_failure_contained (repos : List RepoInput) (lr : Option Int)
    (env : String → String → String → FolderEnv)
    (ri : RepoInput) (hri : ri ∈ repos) (f : String) (hf : f ∈ ri.folders)
    (hmiss : (env ri.owner ri.name f).cached = none)
    (e : PyErr)
    (herr : processFolder ri.owner ri.name f ri.stats lr
      (env ri.owner ri.name f).cacheFileExists (env ri.owner ri.name f).fetch = .error e) :
    (folderRecord ri.owner ri.name f ri.stats lr (env ri.owner ri.name f) =
       placeholderRecord ri.owner ri.name f ri.stats (env ri.owner ri.name f).fetch.now ∧
     (placeholderRecord ri.owner ri.name f ri.stats (env ri.owner ri.name f).fetch.now).category
       = .pstr "Error" ∧
     (placeholderRecord ri.owner ri.name f ri.stats
       (env ri.owner ri.name f).fetch.now).compose_available = false ∧
     placeholderRecord ri.owner ri.name f ri.stats (env ri.owner ri.name f).fetch.now
       ∈ finalOutput repos lr env) ∧
    ∀ rj ∈ repos, ∀ g ∈ rj.folders,
      folderRecord rj.owner rj.name g rj.stats lr (env rj.owner rj.name g)
        ∈ finalOutput repos lr env := by
  have hplace : folderRecord ri.owner ri.name f ri.stats lr (env ri.owner ri.name f) =
      placeholderRecord ri.owner ri.name f ri.stats (env ri.owner ri.name f).fetch.now := by
    unfold folderRecord
    rw [hmiss, herr]
  refine ⟨⟨hplace, rfl, rfl, ?_⟩, ?_⟩
  · have := record_mem_runPipeline repos lr env ri hri f hf
    rw [hplace] at this
    exact ((List.mergeSort_perm _ _).mem_iff).mpr this
  · intro rj hrj g hg
    exact ((List.mergeSort_perm _ _).mem_iff).mpr
      (record_mem_runPipeline repos lr env rj hrj g hg)

/-- Witness for C6: a concrete run in which folder "bad" raises while its
sibling "good" and the placeholder both appear in the final output. -/
theorem folder_failure_contained_witness :
    (placeholderRecord "o" "r" "bad" statsEx failingFetch.now ∈ finalOutput reposEx none envEx ∧
     (placeholderRecord "o" "r" "bad" statsEx failingFetch.now).category = .pstr "Error" ∧
     (placeholderRecord "o" "r" "bad" statsEx failingFetch.now).compose_available = false) ∧
    folderRecord "o" "r" "good" statsEx none (envEx "o" "r" "good")
      ∈ finalOutput reposEx none envEx := by
  have h := folder_failure_contained reposEx none envEx
    { owner := "o", name := "r", folders := ["bad", "good"], stats := statsEx }
    (by simp [reposEx]) "bad" (by simp) rfl .attributeError rfl
  refine ⟨⟨?_, h.1.2.1, h.1.2.2.1⟩, ?_⟩
  · exact h.1.2.2.2
  · exact h.2 { owner := "o", name := "r", folders := ["bad", "good"], stats := statsEx }
      (by simp [reposEx]) "good" (by simp)

/-- Counterexample to C3 as stated: the final output of a concrete run
contains a record one of whose serialized fields is `null` (the `created`
field of the placeholder record produced for the failing folder). -/
theorem pipeline_record_null_field :
    (finalOutput reposEx none envEx).any serializedHasNullField = true := by
  have h : (runPipeline reposEx none envEx).any serializedHasNullField = true := by decide
  rw [List.any_eq_true] at h
  rw [List.any_eq_true]
  obtain ⟨x, hx, hp⟩ := h
  exact ⟨x, ((List.mergeSort_perm _ _).mem_iff).mpr hx, hp⟩

/-- Claim C3 amended: every record assembled by the per-folder body and
every placeholder record serializes with exactly the fixed key set (no
field is ever absent), and the `title`, `description` and `url` fields are
never `null`; however `created`, `port` and `memory` (and metadata fields
fed from explicit upstream nulls) can be `null`, so the claim's "no field
is null" does not hold as stated. -/
theorem record_fields_complete (owner repo folder : String) (stats : RepoStats)
    (lr : Option Int) (ce : Bool) (fr : FetchResults) (p : FolderPieces) :
    ((serializeAppRecord (assembleRecord owner repo folder stats lr ce fr p)).map Prod.fst
        = appRecordKeys ∧
     (serializeAppRecord (placeholderRecord owner repo folder stats fr.now)).map Prod.fst
        = appRecordKeys) ∧
    (assembleRecord owner repo folder stats lr ce fr p).title ≠ .pnone ∧
    (assembleRecord owner repo folder stats lr ce fr p).description ≠ .pnone ∧
    (assembleRecord owner repo folder stats lr ce fr p).url ≠ .pnone := by
  refine ⟨⟨rfl, rfl⟩, ?_, ?_, ?_⟩
  · exact pyOr_last_pstr _ _ _
  · exact pyOr_last_pstr _ _ _
  · exact pyOr_last_pstr _ _ _

/-- Counterexample to C2 as stated: with a prior run timestamp present, no
creation timestamp resolved and no pre-existing cache file, the record is
marked new (`is_new = true`), while the claim requires `is_new = false`
whenever a prior run timestamp exists but no creation timestamp was
resolved. -/
theorem is_new_unresolved_created_cex :
    (processFolder "o" "r" "f" statsEx (some 0) false fetchNoCreated).map
      (fun r => r.is_new) = .ok true := rfl

/-- Claim C2 amended: when a prior run timestamp exists and a non-empty
creation timestamp was resolved, `is_new` stays false whenever the parsed
creation date is offset-aware (every Z-suffixed commit date is: comparing
it with the naive `last_run_time` raises `TypeError`, swallowed by the
bare `except`) or the parse itself fails, and equals `created > last_run`
only for a naive creation date; otherwise — no prior run, or no creation
timestamp, or an empty creation string — `is_new` is true exactly when no
cache file for the app existed before this run. -/
theorem is_new_rule (owner repo folder : String) (stats : RepoStats) (lr : Option Int)
    (ce : Bool) (fr : FetchResults) (p : FolderPieces) :
    (∀ t0 raw t1, lr = some t0 → fr.created = some ⟨raw, some ⟨t1, false⟩⟩ → raw ≠ "" →
        (assembleRecord owner repo folder stats lr ce fr p).is_new = decide (t1 > t0)) ∧
    (∀ t0 raw t1, lr = some t0 → fr.created = some ⟨raw, some ⟨t1, true⟩⟩ → raw ≠ "" →
        (assembleRecord owner repo folder stats lr ce fr p).is_new = false) ∧
    (∀ t0 raw, lr = some t0 → fr.created = some ⟨raw, none⟩ → raw ≠ "" →
        (assembleRecord owner repo folder stats lr ce fr p).is_new = false) ∧
    (lr = none → (assembleRecord owner repo folder stats lr ce fr p).is_new = !ce) ∧
    (fr.created = none → (assembleRecord owner repo folder stats lr ce fr p).is_new = !ce) ∧
    (∀ pr, fr.created = some ⟨"", pr⟩ →
        (assembleRecord owner repo folder stats lr ce fr p).is_new = !ce) := by
  refine ⟨?_, ?_, ?_, ?_, ?_, ?_⟩
  · intro t0 raw t1 h1 h2 h3
    show computeIsNew lr fr.created ce = _
    rw [h1, h2]
    simp [computeIsNew, h3]
  · intro t0 raw t1 h1 h2 h3
    show computeIsNew lr fr.created ce = _
    rw [h1, h2]
    simp [computeIsNew, h3]
  · intro t0 raw h1 h2 h3
    show computeIsNew lr fr.created ce = _
    rw [h1, h2]
    simp [computeIsNew, h3]
  · intro h1
    show computeIsNew lr fr.created ce = _
    rw [h1]
    cases fr.created <;> simp [computeIsNew]
  · intro h1
    show computeIsNew lr fr.created ce = _
    rw [h1]
    cases lr <;> simp [computeIsNew]
  · intro pr h1
    show computeIsNew lr fr.created ce = _
    rw [h1]
    cases lr <;> simp [computeIsNew]

/-- Witness for C2's amended rule at concrete inputs: with a prior run at
0, a Z-suffixed creation date (aware, parsed at 5) leaves `is_new = false`,
while an offset-free creation date (naive, parsed at 5) yields the actual
comparison, here true. -/
theorem is_new_rule_witness :
    (assembleRecord "o" "r" "f" statsEx (some 0) false okFetch emptyPieces).is_new
      = false ∧
    (assembleRecord "o" "r" "f" statsEx (some 0) false okFetchNaive emptyPieces).is_new
      = decide ((5 : Int) > 0) :=
  ⟨(is_new_rule "o" "r" "f" statsEx (some 0) false okFetch emptyPieces).2.1
      0 "2025-01-02T00:00:00Z" 5 rfl rfl (by decide),
   (is_new_rule "o" "r" "f" statsEx (some 0) false okFetchNaive emptyPieces).1
      0 "2025-01-02T00:00:00" 5 rfl rfl (by decide)⟩

/-! ## Decimal rendering: decode left inverse and injectivity -/

theorem digitChar_decode : ∀ d, d < 10 → (Nat.digitChar d).toNat - 48 = d := by decide

theorem decodeDec_decDigits : ∀ fuel n, n < fuel → decodeDec (decDigits fuel n) = n := by
  intro fuel
  induction fuel with
  | zero => intro n h; omega
  | succ f ih =>
      intro n h
      by_cases h10 : n < 10
      · simp [decDigits, h10, decodeDec, digitChar_decode n h10]
      · have hrec : n / 10 < f := by
          have h1 : n / 10 < n := Nat.div_lt_self (by omega) (by omega)
          omega
        simp only [decDigits, h10, if_false]
        unfold decodeDec
        rw [List.foldl_append]
        have := ih (n / 10) hrec
        unfold decodeDec at this
        rw [this]
        simp [digitChar_decode (n % 10) (Nat.mod_lt n (by omega))]
        omega

theorem natToDec_injective : Function.Injective natToDec := by
  intro a b h
  unfold natToDec at h
  have hdata : decDigits (a + 1) a = decDigits (b + 1) b := by
    have : (decDigits (a + 1) a).asString.data = (decDigits (b + 1) b).asString.data := by
      rw [h]
    exact this
  have := decodeDec_decDigits (a + 1) a (by omega)
  rw [hdata, decodeDec_decDigits (b + 1) b (by omega)] at this
  omega

theorem strAppend_left_cancel (a x y : String) (h : a ++ x = a ++ y) : x = y := by
  have h2 : (a ++ x).data = (a ++ y).data := by rw [h]
  rw [String.data_append, String.data_append] at h2
  exact String.ext (List.append_cancel_left h2)

theorem candidate_injective (orig : String) :
    Function.Injective (fun k : Nat => orig ++ "-" ++ natToDec (1 + k)) := by
  intro a b h
  simp only at h
  have := strAppend_left_cancel (orig ++ "-") (natToDec (1 + a)) (natToDec (1 + b))
    (by simpa [String.append_assoc] using h)
  have := natToDec_injective this
  omega

theorem exists_fresh_candidate (seen : List String) (orig : String) :
    ∃ k, k < seen.length + 1 ∧ (orig ++ "-" ++ natToDec (1 + k)) ∉ seen := by
  by_contra hcon
  push_neg at hcon
  have hsub : ((List.range (seen.length + 1)).map
      (fun k => orig ++ "-" ++ natToDec (1 + k))) ⊆ seen := by
    intro x hx
    obtain ⟨k, hk, rfl⟩ := List.mem_map.mp hx
    exact hcon k (List.mem_range.mp hk)
  have hnd : ((List.range (seen.length + 1)).map
      (fun k => orig ++ "-" ++ natToDec (1 + k))).Nodup :=
    (List.nodup_range _).map (candidate_injective orig)
  have hlen := (hnd.subperm hsub).length_le
  simp at hlen

theorem resolveIdLoop_spec (seen : List String) (orig : String) :
    ∀ fuel counter cur,
      (cur ∉ seen ∨ ∃ k, k < fuel ∧ (orig ++ "-" ++ natToDec (counter + k)) ∉ seen) →
      resolveIdLoop seen orig fuel counter cur ∉ seen := by
  intro fuel
  induction fuel with
  | zero =>
      intro counter cur h
      rcases h with h | ⟨k, hk, _⟩
      · simpa [resolveIdLoop] using h
      · omega
  | succ f ih =>
      intro counter cur h
      by_cases hc : cur ∈ seen
      · rw [resolveIdLoop, if_pos hc]
        apply ih
        rcases h with h | ⟨k, hk, hk2⟩
        · exact absurd hc h
        · cases k with
          | zero => exact Or.inl (by simpa using hk2)
          | succ j =>
              refine Or.inr ⟨j, by omega, ?_⟩
              have harith : counter + (j + 1) = counter + 1 + j := by omega
              rwa [harith] at hk2
      · rw [resolveIdLoop, if_neg hc]
        exact hc

theorem newId_fresh (seen : List String) (orig start : String) :
    resolveIdLoop seen orig (seen.length + 1) 1 start ∉ seen := by
  apply resolveIdLoop_spec
  exact Or.inr (exists_fresh_candidate seen orig)

theorem processApps_ids_nodup (apps : List SrcApp) :
    ∀ seen : List String,
      ((processApps apps seen).map (fun c => c.id)).Nodup ∧
      ∀ i ∈ (processApps apps seen).map (fun c => c.id), i ∉ seen := by
  induction apps with
  | nil => intro seen; simp [processApps]
  | cons app rest ih =>
      intro seen
      rw [processApps]
      by_cases h1 : app.compose_available
      · simp only [h1, Bool.not_true, Bool.false_eq_true, if_false]
        by_cases h2 : (convert_app_to_cosmos app).compose == ""
        · simp only [h2, if_true]
          exact ih seen
        · simp only [h2, Bool.false_eq_true, if_false]
          have hfresh := newId_fresh seen (convert_app_to_cosmos app).id
            (if (convert_app_to_cosmos app).id ∈ seen
             then (convert_app_to_cosmos app).id ++ "-" ++ repoSuffix app
             else (convert_app_to_cosmos app).id)
          obtain ⟨hnd, hnotin⟩ := ih
            (resolveIdLoop seen (convert_app_to_cosmos app).id (seen.length + 1) 1
              (if (convert_app_to_cosmos app).id ∈ seen
               then (convert_app_to_cosmos app).id ++ "-" ++ repoSuffix app
               else (convert_app_to_cosmos app).id) :: seen)
          constructor
          · rw [List.map_cons, List.nodup_cons]
            refine ⟨fun hmem => ?_, hnd⟩
            exact (hnotin _ hmem) (List.mem_cons_self _ _)
          · intro i hi
            rw [List.map_cons, List.mem_cons] at hi
            rcases hi with rfl | hi
            · exact hfresh
            · intro hseen
              exact (hnotin i hi) (List.mem_cons_of_mem _ hseen)
      · simp only [h1, Bool.not_false, if_true]
        exact ih seen

/-- Claim C9: the id (slug) values of the records in the generated
marketplace output are pairwise distinct for every input collection — the
slugify-plus-collision-suffix rule (repo suffix, then an incrementing
numeric counter) always produces a globally unique identifier. -/
theorem market_ids_unique (apps : List SrcApp) :
    ((generateMarket apps).map (fun c => c.id)).Nodup :=
  (processApps_ids_nodup apps []).1

theorem processApps_members (apps : List SrcApp) :
    ∀ seen : List String,
      (∀ e ∈ processApps apps seen, ∃ a ∈ apps, a.compose_available = true ∧
         (convert_app_to_cosmos a).compose ≠ "" ∧
         ∃ newId, e = { convert_app_to_cosmos a with id := newId }) ∧
      (processApps apps seen).length =
        (apps.filter (fun a => a.compose_available &&
          (convert_app_to_cosmos a).compose != "")).length := by
  induction apps with
  | nil => intro seen; simp [processApps]
  | cons app rest ih =>
      intro seen
      rw [processApps]
      by_cases h1 : app.compose_available
      · simp only [h1, Bool.not_true, Bool.false_eq_true, if_false]
        by_cases h2 : (convert_app_to_cosmos app).compose == ""
        · simp only [h2, if_true]
          obtain ⟨hmem, hlen⟩ := ih seen
          refine ⟨?_, ?_⟩
          · intro e he
            obtain ⟨a, ha, h3, h4, h5⟩ := hmem e he
            exact ⟨a, List.mem_cons_of_mem _ ha, h3, h4, h5⟩
          · rw [hlen, List.filter_cons]
            have : (app.compose_available && (convert_app_to_cosmos app).compose != "") = false := by
              simp [h1]
              simpa using h2
            rw [this]
            simp
        · simp only [h2, Bool.false_eq_true, if_false]
          obtain ⟨hmem, hlen⟩ := ih
            (resolveIdLoop seen (convert_app_to_cosmos app).id (seen.length + 1) 1
              (if (convert_app_to_cosmos app).id ∈ seen
               then (convert_app_to_cosmos app).id ++ "-" ++ repoSuffix app
               else (convert_app_to_cosmos app).id) :: seen)
          refine ⟨?_, ?_⟩
          · intro e he
            rw [List.mem_cons] at he
            rcases he with rfl | he
            · refine ⟨app, List.mem_cons_self _ _, h1, by simpa using h2, _, rfl⟩
            · obtain ⟨a, ha, h3, h4, h5⟩ := hmem e he
              exact ⟨a, List.mem_cons_of_mem _ ha, h3, h4, h5⟩
          · rw [List.length_cons, hlen, List.filter_cons]
            have : (app.compose_available && (convert_app_to_cosmos app).compose != "") = true := by
              simp [h1]
              simpa using h2
            rw [this]
            simp
      · simp only [h1, Bool.not_false, if_true]
        obtain ⟨hmem, hlen⟩ := ih seen
        refine ⟨?_, ?_⟩
        · intro e he
          obtain ⟨a, ha, h3, h4, h5⟩ := hmem e he
          exact ⟨a, List.mem_cons_of_mem _ ha, h3, h4, h5⟩
        · rw [hlen, List.filter_cons]
          have : (app.compose_available && (convert_app_to_cosmos app).compose != "") = false := by
            simp [h1]
          rw [this]
          simp

/-- Claim C10: every record in the generated marketplace output corresponds
to an input app with a truthy `compose_available` and a non-empty
constructible compose URL (it is that app's conversion, up to the assigned
unique id), and the output has exactly one record per such input app, so
every app with `compose_available` false or absent is excluded. -/
theorem market_members (apps : List SrcApp) :
    (∀ e ∈ generateMarket apps, ∃ a ∈ apps, a.compose_available = true ∧
       (convert_app_to_cosmos a).compose ≠ "" ∧
       ∃ newId, e = { convert_app_to_cosmos a with id := newId }) ∧
    (generateMarket apps).length =
      (apps.filter (fun a => a.compose_available &&
        (convert_app_to_cosmos a).compose != "")).length :=
  processApps_members apps []

theorem lookup_map_pstr (m : List (String × String)) (k : String) :
    (m.map (fun p => (p.1, PyVal.pstr p.2))).lookup k = (m.lookup k).map PyVal.pstr := by
  induction m with
  | nil => rfl
  | cons p rest ih =>
      by_cases h : k == p.1
      · simp [List.lookup, h]
      · simp only [List.map_cons, List.lookup]
        rw [show (k == p.1) = false by simpa using h]
        simpa using ih

theorem localeChain_map (m : List (String × String)) :
    localeChain (m.map (fun p => (p.1, PyVal.pstr p.2))) = .pstr (localeSelectCode m) := by
  unfold localeChain localeSelectCode dGet
  rw [lookup_map_pstr, lookup_map_pstr, lookup_map_pstr]
  cases m.lookup "en_US" <;> cases m.lookup "en_us" <;> cases m.lookup "en" <;> simp



/-! ## Value-shape predicates and ok-lemmas for the resolver -/

theorem dGet_isStr {es : List (String × PyVal)} (h : IsStrD es) {d : PyVal}
    (hd : IsStr d) (k : String) : IsStr (dGet es k d) := by
  induction es with
  | nil => simpa [dGet, List.lookup]
  | cons p rest ih =>
      by_cases hk : k == p.1
      · simpa [dGet, List.lookup, hk] using h p (List.mem_cons_self _ _)
      · have h' : IsStrD rest := fun q hq => h q (List.mem_cons_of_mem _ hq)
        simp only [dGet, List.lookup] at *
        rw [show (k == p.1) = false by simpa using hk]
        exact ih h'

theorem dGet_isStr_or_none {es : List (String × PyVal)} (h : IsStrD es) (k : String) :
    IsStr (dGet es k .pnone) ∨ dGet es k .pnone = .pnone := by
  induction es with
  | nil => right; rfl
  | cons p rest ih =>
      by_cases hk : k == p.1
      · left; simpa [dGet, List.lookup, hk] using h p (List.mem_cons_self _ _)
      · have h' : IsStrD rest := fun q hq => h q (List.mem_cons_of_mem _ hq)
        simp only [dGet, List.lookup] at *
        rw [show (k == p.1) = false by simpa using hk]
        exact ih h'

theorem localeChain_isStr {es : List (String × PyVal)} (h : IsStrD es) :
    IsStr (localeChain es) := by
  unfold localeChain
  exact dGet_isStr h (dGet_isStr h (dGet_isStr h ⟨"", rfl⟩ "en") "en_us") "en_US"

theorem pyOr_isStr {a b : PyVal} (ha : IsStr a ∨ a = .pnone) (hb : IsStr b) :
    IsStr (pyOr a b) := by
  unfold pyOr
  split
  · rcases ha with ha | rfl
    · exact ha
    · simp [pyTruthy] at *
  · exact hb

theorem dictSet_isStrD {es : List (String × PyVal)} (h : IsStrD es) (k : String)
    {v : PyVal} (hv : IsStr v) : IsStrD (dictSet es k v) := by
  unfold dictSet
  split
  · intro p hp
    obtain ⟨q, hq, hqe⟩ := List.mem_map.mp hp
    by_cases hqk : q.1 == k
    · rw [if_pos hqk] at hqe
      rw [← hqe]
      exact hv
    · rw [if_neg hqk] at hqe
      rw [← hqe]
      exact h q hq
  · intro p hp
    rcases List.mem_append.mp hp with hp | hp
    · exact h p hp
    · rw [List.mem_singleton.mp hp]
      exact hv

theorem kvStep_pstr (acc : List (String × PyVal)) (s : String) :
    kvStep acc (.pstr s) =
      .ok (if substrCheck "=" s then
        dictSet acc (splitOnce s '=').1 (.pstr (splitOnce s '=').2) else acc) := by
  unfold kvStep pyInMember
  simp only [bind, Except.bind]
  split <;> rfl

theorem kvFold_ok : ∀ (items : List PyVal) (acc : List (String × PyVal)),
    (∀ i ∈ items, IsStr i) → IsStrD acc →
    ∃ d, items.foldlM kvStep acc = .ok d ∧ IsStrD d := by
  intro items
  induction items with
  | nil =>
      intro acc _ hacc
      exact ⟨acc, rfl, hacc⟩
  | cons x rest ih =>
      intro acc hi hacc
      obtain ⟨s, rfl⟩ := hi x (List.mem_cons_self _ _)
      have hrest : ∀ i ∈ rest, IsStr i := fun i h => hi i (List.mem_cons_of_mem _ h)
      simp only [List.foldlM, kvStep_pstr, bind, Except.bind]
      by_cases hc : substrCheck "=" s = true
      · rw [if_pos hc]
        exact ih _ hrest (dictSet_isStrD hacc _ ⟨_, rfl⟩)
      · rw [if_neg hc]
        exact ih _ hrest hacc

theorem kvListToDict_ok (items : List PyVal) (hi : ∀ i ∈ items, IsStr i) :
    ∃ d, kvListToDict items = .ok d ∧ IsStrD d := by
  unfold kvListToDict
  exact kvFold_ok items [] hi (by intro p hp; cases hp)

theorem mkLabelDict_ok (labels : PyVal)
    (h : (∃ items, labels = .plist items ∧ ∀ i ∈ items, IsStr i) ∨
         (∃ es, labels = .pdict es ∧ IsStrD es)) :
    ∃ d, mkLabelDict labels = .ok (.pdict d) ∧ IsStrD d := by
  rcases h with ⟨items, rfl, hi⟩ | ⟨es, rfl, hes⟩
  · obtain ⟨d, hd, hds⟩ := kvListToDict_ok items hi
    refine ⟨d, ?_, hds⟩
    unfold mkLabelDict
    simp only [bind, Except.bind, hd, pure, Except.pure]
  · by_cases he : es.isEmpty
    · refine ⟨[], ?_, by intro p hp; cases hp⟩
      unfold mkLabelDict pyOr
      simp only [pyTruthy, he]
      rw [List.isEmpty_iff.mp he]
      rfl
    · refine ⟨es, ?_, hes⟩
      unfold mkLabelDict pyOr
      simp [pyTruthy, he, pure, Except.pure]

theorem resolveTitle_ok (cs ld cf : List (String × PyVal))
    (hld : IsStrD ld)
    (htitle : (∃ m, dGet cs "title" .pnone = .pdict m ∧ IsStrD m) ∨
       IsStr (dGet cs "title" .pnone) ∨ dGet cs "title" .pnone = .pnone)
    (hcf : IsStr (dGet cf "title" (.pstr ""))) :
    ∃ s, resolveTitle (.pdict cs) (.pdict ld) (.pdict cf) = .ok (.pstr s) := by
  unfold resolveTitle
  simp only [pyGet, pyGetD, bind, Except.bind, pure, Except.pure]
  have hinner : IsStr (pyOr (dGet ld "casaos.title" .pnone) (dGet cf "title" (.pstr ""))) :=
    pyOr_isStr (dGet_isStr_or_none hld "casaos.title") hcf
  rcases htitle with ⟨m, hm, hms⟩ | ⟨s, hs⟩ | hn
  · rw [hm]
    obtain ⟨t, ht⟩ := pyOr_isStr (Or.inl (localeChain_isStr hms)) hinner
    refine ⟨t, ?_⟩
    show Except.ok (pyOr (localeChain m) _) = _
    rw [ht]
  · rw [hs]
    obtain ⟨t, ht⟩ := pyOr_isStr (Or.inl ⟨s, rfl⟩) hinner
    refine ⟨t, ?_⟩
    show Except.ok (pyOr (.pstr s) _) = _
    rw [ht]
  · rw [hn]
    obtain ⟨t, ht⟩ := pyOr_isStr (Or.inr rfl) hinner
    refine ⟨t, ?_⟩
    show Except.ok (pyOr (.pnone) _) = _
    rw [ht]

theorem resolveIcon_ok (cs ld cf : List (String × PyVal)) :
    ∃ v, resolveIcon (.pdict cs) (.pdict ld) (.pdict cf) = .ok v := by
  unfold resolveIcon
  simp only [pyGet, pyGetD, bind, Except.bind, pure, Except.pure]
  exact ⟨_, rfl⟩

theorem resolveAuthor_ok (cs ld cf : List (String × PyVal)) :
    ∃ v, resolveAuthor (.pdict cs) (.pdict ld) (.pdict cf) = .ok v := by
  unfold resolveAuthor
  simp only [pyGet, pyGetD, bind, Except.bind, pure, Except.pure]
  exact ⟨_, rfl⟩

theorem resolveDescription_ok (cs ld cf : List (String × PyVal)) :
    ∃ v, resolveDescription (.pdict cs) (.pdict ld) (.pdict cf) = .ok v := by
  unfold resolveDescription
  simp only [pyGet, pyGetD, bind, Except.bind, pure, Except.pure]
  by_cases hd : pyTruthy (localeSelectVal (dGet cs "description" .pnone))
  · rw [if_pos hd]
    exact ⟨_, rfl⟩
  · rw [if_neg hd]
    exact ⟨_, rfl⟩

theorem resolveCategory_ok (cs ld cf : List (String × PyVal)) (mtitle : PyVal)
    (hm : IsStr mtitle ∨ mtitle = .pnone)
    (hcf : IsStr (dGet cf "title" (.pstr ""))) :
    ∃ v, resolveCategory (.pdict cs) (.pdict ld) (.pdict cf) mtitle = .ok v := by
  unfold resolveCategory
  simp only [pyGet, pyGetD, bind, Except.bind, pure, Except.pure]
  by_cases hc : pyTruthy (pyOr (dGet cs "category" .pnone)
      (pyOr (dGet ld "casaos.category" .pnone) (dGet cf "category" .pnone)))
  · rw [if_pos hc]
    exact ⟨_, rfl⟩
  · rw [if_neg hc]
    obtain ⟨s, hs⟩ := pyOr_isStr hm hcf
    rw [hs]
    have hl : lowerName (.pstr s) = .ok (strLower s) := rfl
    rw [hl]
    exact ⟨_, rfl⟩

theorem versionDefault_pstr (s : String) : ∃ v, versionDefault (.pstr s) = .ok (.pstr v) := by
  unfold versionDefault pyInMember
  simp only [bind, Except.bind, pure, Except.pure]
  by_cases hc : substrCheck ":" s = true
  · rw [if_pos hc]
    exact ⟨_, rfl⟩
  · rw [if_neg hc]
    exact ⟨_, rfl⟩

theorem resolveVersion_ok (ms ld : List (String × PyVal))
    (himg : IsStr (dGet ms "image" (.pstr ""))) :
    ∃ v, resolveVersion (.pdict ms) (.pdict ld) = .ok v := by
  unfold resolveVersion
  simp only [pyGetD, bind, Except.bind, pure, Except.pure]
  obtain ⟨s, hs⟩ := himg
  rw [hs]
  obtain ⟨t, ht⟩ := versionDefault_pstr s
  rw [ht]
  exact ⟨_, rfl⟩

theorem computePort_ok (ms : List (String × PyVal))
    (hp : ∃ items, dGet ms "ports" (.plist []) = .plist items) :
    ∃ v, computePort (.pdict ms) = .ok v := by
  unfold computePort
  simp only [pyGetD, bind, Except.bind, pure, Except.pure]
  obtain ⟨items, hi⟩ := hp
  rw [hi]
  by_cases ht : pyTruthy (PyVal.plist items) = true
  · rw [if_pos ht]
    match items with
    | [] => simp [pyTruthy] at ht
    | x :: rest =>
        have hfp : firstPortEntry (.plist (x :: rest)) = .ok x := rfl
        rw [hfp]
        exact ⟨_, rfl⟩
  · rw [if_neg ht]
    exact ⟨_, rfl⟩

theorem computeEnv_ok (ms : List (String × PyVal))
    (he : (∃ items, dGet ms "environment" (.plist []) = .plist items ∧
             ∀ i ∈ items, IsStr i) ∨
          (∀ items, dGet ms "environment" (.plist []) ≠ .plist items)) :
    ∃ v, computeEnv (.pdict ms) = .ok v := by
  unfold computeEnv
  simp only [pyGetD, bind, Except.bind, pure, Except.pure]
  rcases he with ⟨items, hi, his⟩ | hne
  · rw [hi]
    obtain ⟨d, hd, _⟩ := kvListToDict_ok items his
    refine ⟨.pdict d, ?_⟩
    show (kvListToDict items).map PyVal.pdict = _
    rw [hd]
    rfl
  · rcases henv : dGet ms "environment" (.plist []) with _ | b | n | s | xs | es
    · exact ⟨_, rfl⟩
    · exact ⟨_, rfl⟩
    · exact ⟨_, rfl⟩
    · exact ⟨_, rfl⟩
    · exact absurd henv (hne xs)
    · exact ⟨_, rfl⟩

theorem lookup_of_any {es : List (String × PyVal)} (k : String)
    (h : es.any (fun p => p.1 == k) = true) : ∃ v, es.lookup k = some v := by
  induction es with
  | nil => simp at h
  | cons p rest ih =>
      by_cases hk : p.1 == k
      · refine ⟨p.2, ?_⟩
        have hk' : (k == p.1) = true := by
          have hpk : p.1 = k := by simpa using hk
          simp [hpk]
        simp [List.lookup, hk']
      · have h' : rest.any (fun p => p.1 == k) = true := by
          simp only [List.any_cons, hk, Bool.false_or] at h
          exact h
        obtain ⟨v, hv⟩ := ih h'
        refine ⟨v, ?_⟩
        have hk' : (k == p.1) = false := by
          by_cases he : k = p.1
          · exact absurd (by simp [he]) hk
          · simpa using he
        simp [List.lookup, hk', hv]

theorem computeMemory_ok (ms : List (String × PyVal))
    (hd : ∀ v, ms.lookup "deploy" = some v →
       ∃ ds, v = .pdict ds ∧
         ∀ w, ds.lookup "resources" = some w →
           ∃ rs, w = .pdict rs ∧
             ∀ u, rs.lookup "limits" = some u → ∃ ls, u = .pdict ls) :
    ∃ v, computeMemory (.pdict ms) = .ok v := by
  unfold computeMemory
  simp only [pyInMember, bind, Except.bind, pure, Except.pure]
  by_cases hdep : ms.any (fun p => p.1 == "deploy") = true
  · rw [if_pos hdep]
    obtain ⟨v, hv⟩ := lookup_of_any "deploy" hdep
    obtain ⟨ds, rfl, hres⟩ := hd v hv
    have hsub : pySubscript (.pdict ms) "deploy" = .ok (.pdict ds) := by
      show (match ms.lookup "deploy" with
            | some v => Except.ok v
            | none => Except.error PyErr.keyError) = _
      rw [hv]
    rw [hsub]
    simp only [bind, Except.bind, pure, Except.pure]
    by_cases hres2 : ds.any (fun p => p.1 == "resources") = true
    · rw [if_pos hres2]
      obtain ⟨w, hw⟩ := lookup_of_any "resources" hres2
      obtain ⟨rs, rfl, hlims⟩ := hres w hw
      have hsub2 : pySubscript (.pdict ds) "resources" = .ok (.pdict rs) := by
        show (match ds.lookup "resources" with
              | some v => Except.ok v
              | none => Except.error PyErr.keyError) = _
        rw [hw]
      rw [hsub2]
      simp only [pyGetD, bind, Except.bind, pure, Except.pure]
      have hlim : ∃ ls, dGet rs "limits" (.pdict []) = .pdict ls := by
        unfold dGet
        cases hu : rs.lookup "limits" with
        | none => exact ⟨[], rfl⟩
        | some u =>
            obtain ⟨ls, rfl⟩ := hlims u hu
            exact ⟨ls, rfl⟩
      obtain ⟨ls, hls⟩ := hlim
      rw [hls]
      exact ⟨_, rfl⟩
    · rw [if_neg hres2]
      exact ⟨_, rfl⟩
  · rw [if_neg hdep]
    exact ⟨_, rfl⟩

/-! ## Shape facts about rendered well-formed inputs (claim C8) -/

theorem lookup_optEntry_self (k : String) (o : Option PyVal) (rest : List (String × PyVal)) :
    (optEntry k o ++ rest).lookup k =
      (match o with | some v => some v | none => rest.lookup k) := by
  cases o
  · rfl
  · simp [optEntry, List.lookup]

theorem lookup_optEntry_ne (k k' : String) (h : (k == k') = false) (o : Option PyVal)
    (rest : List (String × PyVal)) :
    (optEntry k' o ++ rest).lookup k = rest.lookup k := by
  cases o
  · rfl
  · simp [optEntry, List.lookup, h]

theorem MSFacts_nil : MSFacts [] := by
  refine ⟨Or.inl ⟨[], rfl, by intro i hi; cases hi⟩, ⟨"", rfl⟩, ⟨[], rfl⟩,
    Or.inl ⟨[], rfl, by intro i hi; cases hi⟩, ?_⟩
  intro v hv
  cases hv

theorem MSFacts_entries (s : WFService) : MSFacts s.entries := by
  unfold WFService.entries
  refine ⟨?_, ?_, ?_, ?_, ?_⟩
  · show (∃ items, dGet _ "labels" (.plist []) = _ ∧ _) ∨ _
    unfold dGet
    rw [lookup_optEntry_self]
    cases s.labels with
    | none =>
        simp only [Option.map]
        rw [lookup_optEntry_ne _ _ (by decide), lookup_optEntry_ne _ _ (by decide),
          lookup_optEntry_ne _ _ (by decide), lookup_optEntry_ne _ _ (by decide),
          lookup_optEntry_ne _ _ (by decide)]
        exact Or.inl ⟨[], rfl, by intro i hi; cases hi⟩
    | some lv =>
        simp only [Option.map]
        cases lv with
        | ldict m =>
            right
            refine ⟨m.map (fun p => (p.1, PyVal.pstr p.2)), ?_, ?_⟩
            · rfl
            · intro p hp
              obtain ⟨q, _, rfl⟩ := List.mem_map.mp hp
              exact ⟨q.2, rfl⟩
        | llist items =>
            left
            refine ⟨items.map PyVal.pstr, ?_, ?_⟩
            · rfl
            · intro i hi
              obtain ⟨t, _, rfl⟩ := List.mem_map.mp hi
              exact ⟨t, rfl⟩
  · show IsStr (dGet _ "image" (.pstr ""))
    unfold dGet
    rw [lookup_optEntry_ne _ _ (by decide), lookup_optEntry_self]
    cases s.image with
    | none =>
        simp only [Option.map]
        rw [lookup_optEntry_ne _ _ (by decide), lookup_optEntry_ne _ _ (by decide),
          lookup_optEntry_ne _ _ (by decide), lookup_optEntry_ne _ _ (by decide)]
        exact ⟨"", rfl⟩
    | some t =>
        simp only [Option.map]
        exact ⟨t, rfl⟩
  · show ∃ items, dGet _ "ports" (.plist []) = .plist items
    unfold dGet
    rw [lookup_optEntry_ne _ _ (by decide), lookup_optEntry_ne _ _ (by decide),
      lookup_optEntry_self]
    cases s.ports with
    | none =>
        simp only [Option.map]
        rw [lookup_optEntry_ne _ _ (by decide), lookup_optEntry_ne _ _ (by decide),
          lookup_optEntry_ne _ _ (by decide)]
        exact ⟨[], rfl⟩
    | some ps =>
        simp only [Option.map]
        refine ⟨ps.map WFPort.render, ?_⟩
        rfl
  · show (∃ items, dGet _ "environment" (.plist []) = _ ∧ _) ∨ _
    unfold dGet
    rw [lookup_optEntry_ne _ _ (by decide), lookup_optEntry_ne _ _ (by decide),
      lookup_optEntry_ne _ _ (by decide), lookup_optEntry_ne _ _ (by decide),
      lookup_optEntry_self]
    cases s.environment with
    | none =>
        simp only [Option.map]
        rw [lookup_optEntry_ne _ _ (by decide)]
        exact Or.inl ⟨[], rfl, by intro i hi; cases hi⟩
    | some ev =>
        simp only [Option.map]
        cases ev with
        | edict m =>
            right
            intro items h
            exact absurd h (by simp [WFEnv.render])
        | elist items =>
            left
            refine ⟨items.map PyVal.pstr, ?_, ?_⟩
            · rfl
            · intro i hi
              obtain ⟨t, _, rfl⟩ := List.mem_map.mp hi
              exact ⟨t, rfl⟩
  · intro v hv
    rw [lookup_optEntry_ne _ _ (by decide), lookup_optEntry_ne _ _ (by decide),
      lookup_optEntry_ne _ _ (by decide), lookup_optEntry_ne _ _ (by decide),
      lookup_optEntry_ne _ _ (by decide), lookup_optEntry_self] at hv
    cases hdep : s.deploy with
    | none =>
        rw [hdep] at hv
        simp only [Option.map] at hv
        cases hv
    | some d =>
        rw [hdep] at hv
        simp only [Option.map] at hv
        cases hv
        refine ⟨_, rfl, ?_⟩
        intro w hw
        cases hr : d.resources with
        | none =>
            rw [hr] at hw
            simp only [List.lookup] at hw
            exact Option.noConfusion hw
        | some r =>
            rw [hr] at hw
            simp only [List.lookup] at hw
            rw [show ("resources" == "resources") = true by decide] at hw
            simp only [] at hw
            cases hw
            unfold WFResources.render
            cases hl : r.limits with
            | none =>
                refine ⟨_, rfl, ?_⟩
                intro u hu
                rw [show (match (none : Option (List (String × PyVal))) with
                    | some l => [("limits", PyVal.pdict l)]
                    | none => ([] : List (String × PyVal))) = [] from rfl] at hu
                exact Option.noConfusion hu
            | some l =>
                refine ⟨_, rfl, ?_⟩
                intro u hu
                rw [show (match (some l : Option (List (String × PyVal))) with
                    | some l => [("limits", PyVal.pdict l)]
                    | none => ([] : List (String × PyVal))) = [("limits", PyVal.pdict l)]
                  from rfl] at hu
                simp only [List.lookup] at hu
                rw [show ("limits" == "limits") = true by decide] at hu
                simp only [] at hu
                cases hu
                exact ⟨l, rfl⟩

theorem TitleShape_nil : TitleShape [] := Or.inr (Or.inr rfl)

theorem TitleShape_entries (x : XCasaos) : TitleShape x.entries := by
  unfold TitleShape XCasaos.entries dGet
  rw [lookup_optEntry_self]
  cases x.title with
  | none =>
      simp only [Option.map]
      rw [lookup_optEntry_ne _ _ (by decide), lookup_optEntry_ne _ _ (by decide),
        lookup_optEntry_ne _ _ (by decide), lookup_optEntry_ne _ _ (by decide),
        lookup_optEntry_ne _ _ (by decide)]
      exact Or.inr (Or.inr rfl)
  | some t =>
      simp only [Option.map]
      cases t with
      | str s => exact Or.inr (Or.inl ⟨s, rfl⟩)
      | locale m =>
          left
          refine ⟨m.map (fun p => (p.1, PyVal.pstr p.2)), ?_, ?_⟩
          · rfl
          · intro p hp
            obtain ⟨q, _, rfl⟩ := List.mem_map.mp hp
            exact ⟨q.2, rfl⟩

theorem conf_title_isStr (k : WFConf) : IsStr (dGet k.entries "title" (.pstr "")) := by
  unfold WFConf.entries dGet
  rw [lookup_optEntry_self]
  cases k.title with
  | none =>
      simp only [Option.map]
      rw [lookup_optEntry_ne _ _ (by decide), lookup_optEntry_ne _ _ (by decide),
        lookup_optEntry_ne _ _ (by decide), lookup_optEntry_ne _ _ (by decide)]
      exact ⟨"", rfl⟩
  | some t =>
      simp only [Option.map]
      exact ⟨t, rfl⟩

theorem resolveVolumes_ok (ms : List (String × PyVal)) :
    ∃ v, resolveVolumes (.pdict ms) = .ok v := by
  unfold resolveVolumes
  simp only [pyGetD, bind, Except.bind, pure, Except.pure]
  exact ⟨_, rfl⟩

theorem extractCore_wf_ok (c : WFCompose) (k : WFConf) :
    ∃ m, extractCore (WFCompose.render c) (WFConf.render k) = .ok m := by
  obtain ⟨xc, svs⟩ := c
  have hx : ∃ cs, pyGetD (WFCompose.render ⟨xc, svs⟩) "x-casaos" (.pdict []) =
      .ok (.pdict cs) ∧ TitleShape cs := by
    cases xc with
    | none => exact ⟨[], rfl, TitleShape_nil⟩
    | some x => exact ⟨x.entries, rfl, TitleShape_entries x⟩
  obtain ⟨cs, hcs, hts⟩ := hx
  have hsv : pyGetD (WFCompose.render ⟨xc, svs⟩) "services" (.pdict []) =
      .ok (.pdict (svs.map (fun p => (p.1, p.2.render)))) := by
    cases xc <;> rfl
  have hms : ∃ ms, firstServiceValue (.pdict (svs.map (fun p => (p.1, p.2.render)))) =
      .ok (.pdict ms) ∧ MSFacts ms := by
    cases svs with
    | nil => exact ⟨[], rfl, MSFacts_nil⟩
    | cons p rest => exact ⟨p.2.entries, rfl, MSFacts_entries p.2⟩
  obtain ⟨ms, hmsv, hlabF, himgF, hportF, henvF, hdepF⟩ := hms
  have hlabget : pyGetD (.pdict ms) "labels" (.plist []) =
      .ok (dGet ms "labels" (.plist [])) := rfl
  obtain ⟨ld, hld, hlds⟩ := mkLabelDict_ok (dGet ms "labels" (.plist [])) hlabF
  have hcf : IsStr (dGet k.entries "title" (.pstr "")) := conf_title_isStr k
  obtain ⟨ts, htit⟩ := resolveTitle_ok cs ld k.entries hlds hts hcf
  obtain ⟨vi, hicon⟩ := resolveIcon_ok cs ld k.entries
  obtain ⟨vd, hdesc⟩ := resolveDescription_ok cs ld k.entries
  obtain ⟨vc, hcat⟩ := resolveCategory_ok cs ld k.entries (.pstr ts) (Or.inl ⟨ts, rfl⟩) hcf
  obtain ⟨va, hauth⟩ := resolveAuthor_ok cs ld k.entries
  obtain ⟨vv, hver⟩ := resolveVersion_ok ms ld himgF
  obtain ⟨vp, hport⟩ := computePort_ok ms hportF
  obtain ⟨vvol, hvol⟩ := resolveVolumes_ok ms
  obtain ⟨ve, henv⟩ := computeEnv_ok ms henvF
  obtain ⟨vm, hmem⟩ := computeMemory_ok ms hdepF
  unfold extractCore
  rw [show WFConf.render k = .pdict k.entries from rfl]
  simp only [bind, Except.bind, hcs, hsv, hmsv, hlabget, hld, htit, hicon, hdesc, hcat,
    hauth, hver, hport, hvol, henv, hmem, pure, Except.pure]
  exact ⟨_, rfl⟩

/-- Claim C8 amended: the resolver terminates normally (returns rather than
raising) on every input pair built from well-shaped mappings — any compose
document with an optional `x-casaos` mapping of the usual field types and a
`services` mapping of typed services, and any conf mapping with an optional
string title — including empty and partial structures.  It is not total on
arbitrary malformed values (see the counterexample). -/
theorem resolver_total_on_wellformed (c : WFCompose) (k : WFConf) :
    ∃ r, extract_compose_metadata (WFCompose.render c) (WFConf.render k) = .ok r := by
  unfold extract_compose_metadata
  by_cases ht : pyTruthy (WFCompose.render c) = true
  · rw [if_pos ht]
    obtain ⟨m, hm⟩ := extractCore_wf_ok c k
    refine ⟨some m, ?_⟩
    rw [hm]
    rfl
  · rw [if_neg ht]
    exact ⟨none, rfl⟩

/-- Counterexample to C8 as stated: a truthy non-mapping compose document (a
non-empty JSON array) makes the resolver raise `AttributeError` at the
`compose_data.get("x-casaos", ...)` call instead of terminating normally. -/
theorem resolver_raises_on_nonmapping :
    extract_compose_metadata (.plist [.pstr "x"]) (.pdict []) = .error .attributeError := rfl

theorem pyOr_pstr2 (b c : String) :
    pyOr (.pstr b) (.pstr c) = .pstr (if b != "" then b else c) := by
  unfold pyOr pyTruthy
  by_cases hb : (b != "") = true
  · rw [if_pos hb, if_pos hb]
  · rw [if_neg hb, if_neg hb]

theorem pyOr_pstr_empty (s : String) : pyOr (.pstr s) (.pstr "") = .pstr s := by
  rw [pyOr_pstr2]
  by_cases hs : (s != "") = true
  · rw [if_pos hs]
  · rw [if_neg hs]
    have : s = "" := by simpa using hs
    rw [this]

theorem pyOr_pstr3 (a b c : String) :
    pyOr (.pstr a) (pyOr (.pstr b) (.pstr c)) =
      .pstr (if a != "" then a else if b != "" then b else c) := by
  rw [pyOr_pstr2]
  unfold pyOr pyTruthy
  by_cases ha : (a != "") = true
  · rw [if_pos ha, if_pos ha]
  · rw [if_neg ha, if_neg ha]

/-- Claim C1 amended: for a vendor-extension title that is a locale→string
mapping, the resolver selects the value under `en_US`, else `en_us`, else
`en`, else the empty string (not the first value of the mapping, as the
claim stated); it never returns the mapping itself. -/
theorem locale_selection_rule (m : List (String × String)) :
    extractedTitle (extract_compose_metadata (composeTitleOnly m) (.pdict [])) =
      some (.pstr (localeSelectCode m)) := by
  unfold composeTitleOnly extract_compose_metadata
  rw [if_pos (by rfl)]
  have e6 : resolveTitle (.pdict [("title", .pdict (m.map (fun p => (p.1, PyVal.pstr p.2))))])
      (.pdict []) (.pdict []) = .ok (.pstr (localeSelectCode m)) := by
    have h1 : resolveTitle
        (.pdict [("title", .pdict (m.map (fun p => (p.1, PyVal.pstr p.2))))])
        (.pdict []) (.pdict []) =
        .ok (pyOr (localeChain (m.map (fun p => (p.1, PyVal.pstr p.2)))) (.pstr "")) := rfl
    rw [h1, localeChain_map, pyOr_pstr_empty]
  obtain ⟨vc, hcat⟩ := resolveCategory_ok
    [("title", .pdict (m.map (fun p => (p.1, PyVal.pstr p.2))))] [] []
    (.pstr (localeSelectCode m)) (Or.inl ⟨_, rfl⟩) ⟨"", rfl⟩
  have e1 : pyGetD (PyVal.pdict [("x-casaos",
      PyVal.pdict [("title", PyVal.pdict (m.map (fun p => (p.1, PyVal.pstr p.2))))])])
      "x-casaos" (.pdict []) =
      .ok (.pdict [("title", .pdict (m.map (fun p => (p.1, PyVal.pstr p.2))))]) := rfl
  have e2 : pyGetD (PyVal.pdict [("x-casaos",
      PyVal.pdict [("title", PyVal.pdict (m.map (fun p => (p.1, PyVal.pstr p.2))))])])
      "services" (.pdict []) = .ok (.pdict []) := rfl
  have e3 : firstServiceValue (.pdict []) = .ok (.pdict []) := rfl
  have e4 : pyGetD (PyVal.pdict []) "labels" (.plist []) = .ok (.plist []) := rfl
  have e5 : mkLabelDict (.plist []) = .ok (.pdict []) := rfl
  have e7 : resolveIcon (.pdict [("title", .pdict (m.map (fun p => (p.1, PyVal.pstr p.2))))])
      (.pdict []) (.pdict []) = .ok (.pstr "") := rfl
  have e8 : resolveDescription
      (.pdict [("title", .pdict (m.map (fun p => (p.1, PyVal.pstr p.2))))])
      (.pdict []) (.pdict []) = .ok (.pstr "") := rfl
  have e9 : resolveAuthor (.pdict [("title", .pdict (m.map (fun p => (p.1, PyVal.pstr p.2))))])
      (.pdict []) (.pdict []) = .ok (.pstr "") := rfl
  have e10 : resolveVersion (.pdict []) (.pdict []) = .ok (.pstr "") := rfl
  have e11 : computePort (.pdict []) = .ok none := rfl
  have e12 : resolveVolumes (.pdict []) = .ok (.plist []) := rfl
  have e13 : computeEnv (.pdict []) = .ok (.pdict []) := rfl
  have e14 : computeMemory (.pdict []) = .ok none := rfl
  unfold extractCore
  simp only [bind, Except.bind, e1, e2, e3, e4, e5, e6, e7, e8, hcat, e9, e10, e11, e12,
    e13, e14, pure, Except.pure, Except.map, extractedTitle]

/-- Counterexample to C1 as stated: on the mapping {"fr": "Bonjour"} the
resolver returns the empty string, while the claimed rule returns the first
value "Bonjour". -/
theorem locale_selection_cex :
    extractedTitle (extract_compose_metadata (composeTitleOnly [("fr", "Bonjour")])
        (.pdict [])) = some (.pstr "") ∧
      localeSelectSpec [("fr", "Bonjour")] = "Bonjour" ∧ "" ≠ "Bonjour" :=
  ⟨rfl, rfl, by decide⟩

theorem extractedTitle_of_parts (compose : PyVal) (cs svs ms ld cf : List (String × PyVal))
    (ts : String)
    (htr : pyTruthy compose = true)
    (h1 : pyGetD compose "x-casaos" (.pdict []) = .ok (.pdict cs))
    (h2 : pyGetD compose "services" (.pdict []) = .ok (.pdict svs))
    (h3 : firstServiceValue (.pdict svs) = .ok (.pdict ms))
    (h4 : mkLabelDict (dGet ms "labels" (.plist [])) = .ok (.pdict ld))
    (h5 : resolveTitle (.pdict cs) (.pdict ld) (.pdict cf) = .ok (.pstr ts))
    (hmsf : MSFacts ms)
    (hcf : IsStr (dGet cf "title" (.pstr ""))) :
    extractedTitle (extract_compose_metadata compose (.pdict cf)) = some (.pstr ts) := by
  obtain ⟨hlabF, himgF, hportF, henvF, hdepF⟩ := hmsf
  have hlds : IsStrD ld := by
    obtain ⟨d, hd, hds⟩ := mkLabelDict_ok (dGet ms "labels" (.plist [])) hlabF
    rw [h4] at hd
    cases hd
    exact hds
  obtain ⟨vi, hicon⟩ := resolveIcon_ok cs ld cf
  obtain ⟨vd, hdesc⟩ := resolveDescription_ok cs ld cf
  obtain ⟨vc, hcat⟩ := resolveCategory_ok cs ld cf (.pstr ts) (Or.inl ⟨ts, rfl⟩) hcf
  obtain ⟨va, hauth⟩ := resolveAuthor_ok cs ld cf
  obtain ⟨vv, hver⟩ := resolveVersion_ok ms ld himgF
  obtain ⟨vp, hport⟩ := computePort_ok ms hportF
  obtain ⟨vvol, hvol⟩ := resolveVolumes_ok ms
  obtain ⟨ve, henv⟩ := computeEnv_ok ms henvF
  obtain ⟨vm, hmem⟩ := computeMemory_ok ms hdepF
  have hlabget : pyGetD (.pdict ms) "labels" (.plist []) =
      .ok (dGet ms "labels" (.plist [])) := rfl
  unfold extract_compose_metadata
  rw [if_pos htr]
  unfold extractCore
  simp only [bind, Except.bind, h1, h2, h3, hlabget, h4, h5, hicon, hdesc, hcat, hauth,
    hver, hport, hvol, henv, hmem, pure, Except.pure, Except.map, extractedTitle]

theorem MSFacts_labelsOnly (lv : List (String × PyVal)) (hlv : IsStrD lv) :
    MSFacts [("labels", .pdict lv)] := by
  refine ⟨Or.inr ⟨lv, rfl, hlv⟩, ⟨"", rfl⟩, ⟨[], rfl⟩,
    Or.inl ⟨[], rfl, by intro i hi; cases hi⟩, ?_⟩
  intro v hv
  have : List.lookup "deploy" [("labels", PyVal.pdict lv)] = none := rfl
  rw [this] at hv
  exact Option.noConfusion hv

/-- Claim C4: metadata resolution follows the strict priority order
vendor-extension title, then service label `casaos.title`, then conf-file
title, where "present" means non-empty: the resolved title is the
vendor-extension title when non-empty, else the label when present and
non-empty, else the conf-file title. -/
theorem title_priority (A B : Option String) (C : String) :
    extractedTitle (extract_compose_metadata (composeC4 A B) (confC4 C)) =
      some (.pstr (titlePriorityClaim A B C)) := by
  cases A with
  | some a =>
      cases B with
      | some b =>
          refine extractedTitle_of_parts _ [("title", .pstr a)]
            [("app", .pdict [("labels", .pdict [("casaos.title", .pstr b)])])]
            [("labels", .pdict [("casaos.title", .pstr b)])]
            [("casaos.title", .pstr b)] [("title", .pstr C)] _
            rfl rfl rfl rfl rfl ?_ ?_ ⟨C, rfl⟩
          · have h : resolveTitle (.pdict [("title", .pstr a)])
                (.pdict [("casaos.title", .pstr b)]) (.pdict [("title", .pstr C)]) =
                .ok (pyOr (.pstr a) (pyOr (.pstr b) (.pstr C))) := rfl
            rw [h, pyOr_pstr3]
            rfl
          · exact MSFacts_labelsOnly _ (by intro p hp; rw [List.mem_singleton.mp hp]; exact ⟨b, rfl⟩)
      | none =>
          refine extractedTitle_of_parts _ [("title", .pstr a)]
            [("app", .pdict [])] [] [] [("title", .pstr C)] _
            rfl rfl rfl rfl rfl ?_ ?_ ⟨C, rfl⟩
          · have h : resolveTitle (.pdict [("title", .pstr a)])
                (.pdict []) (.pdict [("title", .pstr C)]) =
                .ok (pyOr (.pstr a) (.pstr C)) := rfl
            rw [h, pyOr_pstr2]
            rfl
          · exact MSFacts_nil
  | none =>
      cases B with
      | some b =>
          refine extractedTitle_of_parts _ []
            [("app", .pdict [("labels", .pdict [("casaos.title", .pstr b)])])]
            [("labels", .pdict [("casaos.title", .pstr b)])]
            [("casaos.title", .pstr b)] [("title", .pstr C)] _
            rfl rfl rfl rfl rfl ?_ ?_ ⟨C, rfl⟩
          · have h : resolveTitle (.pdict [])
                (.pdict [("casaos.title", .pstr b)]) (.pdict [("title", .pstr C)]) =
                .ok (pyOr (.pstr b) (.pstr C)) := rfl
            rw [h, pyOr_pstr2]
            rfl
          · exact MSFacts_labelsOnly _ (by intro p hp; rw [List.mem_singleton.mp hp]; exact ⟨b, rfl⟩)
      | none =>
          exact extractedTitle_of_parts _ [] [("app", .pdict [])] [] [] [("title", .pstr C)] _
            rfl rfl rfl rfl rfl rfl MSFacts_nil ⟨C, rfl⟩
